import Mathlib

/-!
Verification development for the `outie` agent orchestrator.

This file gives a shallow embedding, in Lean, of the parts of the TypeScript
source that the specification's claims are about:

* `src/scheduling.ts` — the cron evaluator `getNextCronTime`;
* `src/orchestrator/state.ts` — the SQLite-backed store (conversation buffer,
  journal, state files, reminders, summaries, topics);
* `src/orchestrator/mcp-server.ts` — the MCP JSON-RPC dispatcher and the tool
  handlers, together with the orchestrator-side search pipeline
  (`searchJournal` / `searchTopics`, cosine similarity, no score threshold);
* `src/outie/embeddings.ts` — the outie-side embedder and search pipeline
  (query-instruction asymmetry, dot products, score thresholds);
* `src/orchestrator/index.ts` — `scheduleNextAlarm`, the `alarm` handler and
  the `invoke` session-coordination flow;
* the MCP bridge process (`forwardToDO` and the HTTP endpoint).

Conventions used throughout the embedding:

* All timestamps are integer milliseconds since the Unix epoch (`Int`), and
  wall-clock decompositions use UTC, which is the timezone of the deployment
  runtime (Cloudflare Workers); `Int` division `/` and remainder `%` are
  Euclidean, which coincides with the floor semantics of calendar arithmetic
  for the positive divisors used here.
* JavaScript numbers that can be `NaN` or `Infinity` are modelled by the
  `JsNum` type; an invalid `Date` is modelled by `Option Int` with `none`
  standing for an invalid date / `NaN` time value.
* External effects (the embedding model, Telegram, the JS date parser,
  locale-dependent formatting) are supplied as explicit oracle functions in a
  `ToolEnv` record; the store itself is modelled by explicit lists mirroring
  the SQL tables.
* Asynchronous outcomes (which awaited call fails, whether a request timed
  out) are supplied as explicit outcome values, the standard shallow
  embedding of async control flow.
-/

/-! ## JavaScript string and number primitives -/

/-- Splitting a character list at every occurrence of `sep`, exactly as
JavaScript's `String.prototype.split(sep)` for a single-character separator:
`""` yields `[""]`, separators at the ends yield empty fields. -/
def splitOnChar (sep : Char) : List Char → List (List Char)
  | [] => [[]]
  | c :: rest =>
    let r := splitOnChar sep rest
    if c = sep then [] :: r
    else
      match r with
      | x :: xs => (c :: x) :: xs
      | [] => [[c]]

/-- Numeric value of a list of decimal digit characters (most significant
first). -/
def digitsVal (ds : List Char) : Nat :=
  ds.foldl (fun a c => a * 10 + (c.toNat - 48)) 0

/-- Whitespace characters skipped by JavaScript's `parseInt`. -/
def isJsSpace (c : Char) : Bool :=
  c = ' ' || c = '\t' || c = '\n' || c = '\r'

/-- Longest leading run of decimal digits, as a number; `none` when there is
no leading digit (in JavaScript, `NaN`). -/
def leadingDigitsVal (s : List Char) : Option Int :=
  let ds := s.takeWhile Char.isDigit
  if ds = [] then none else some (digitsVal ds)

/-- JavaScript's `parseInt(s, 10)`: skip leading whitespace, read an optional
sign, then the longest digit run; `none` models a `NaN` result. Trailing
garbage after the digits is ignored, as in JavaScript. -/
def jsParseInt (s : List Char) : Option Int :=
  match s.dropWhile isJsSpace with
  | '-' :: rest => (leadingDigitsVal rest).map (fun n => -n)
  | '+' :: rest => leadingDigitsVal rest
  | rest => leadingDigitsVal rest

/-! ## Wall-clock arithmetic (UTC)

These model the `Date` accessors and mutators used by `getNextCronTime`.
Because the runtime clock is UTC, `setDate(getDate() + 1)` is exactly
adding 86 400 000 ms, and the remaining operations are arithmetic on the
millisecond value. -/

def msPerMinute : Int := 60000

def msPerHour : Int := 3600000

def msPerDay : Int := 86400000

/-- Minute-of-hour of a time value (`Date.prototype.getMinutes` in UTC). -/
def minuteOfHour (t : Int) : Int := t % msPerHour / msPerMinute

/-- Hour-of-day of a time value (`Date.prototype.getHours` in UTC). -/
def hourOfDay (t : Int) : Int := t % msPerDay / msPerHour

/-- Day-of-week of a time value with 0 = Sunday (`Date.prototype.getDay` in
UTC); the epoch, 1 January 1970, was a Thursday (= 4). -/
def dayOfWeek (t : Int) : Int := (t / msPerDay + 4) % 7

/-- Model of `Date.prototype.setMinutes(m)` in UTC: replace the minute-of-hour,
keeping seconds and milliseconds; out-of-range `m` carries into the hour,
as in JavaScript. -/
def setMinutesUTC (t m : Int) : Int :=
  t - minuteOfHour t * msPerMinute + m * msPerMinute

/-- Model of `Date.prototype.setHours(h)` in UTC: replace the hour-of-day, keeping
minutes, seconds and milliseconds. -/
def setHoursUTC (t h : Int) : Int :=
  t - hourOfDay t * msPerHour + h * msPerHour

/-- Model of `setSeconds(0)` followed by `setMilliseconds(0)`: drop the sub-minute
part of the time value. -/
def zeroSecondsAndMs (t : Int) : Int := t - t % msPerMinute

/-- Civil date (year, month 1–12, day 1–31) of a day count since the epoch,
by the standard days-to-civil algorithm over floor division. Used only to
express wall-clock decompositions in claim statements. -/
def civilFromDays (z : Int) : Int × Int × Int :=
  let z := z + 719468
  let era := z / 146097
  let doe := z - era * 146097
  let yoe := (doe - doe / 1460 + doe / 36524 - doe / 146096) / 365
  let doy := doe - (365 * yoe + yoe / 4 - yoe / 100)
  let mp := (5 * doy + 2) / 153
  let d := doy - (153 * mp + 2) / 5 + 1
  let m := mp + (if mp < 10 then 3 else -9)
  let y := yoe + era * 400 + (if m ≤ 2 then 1 else 0)
  (y, m, d)

/-- Day-of-month (1–31) of a time value, in UTC. -/
def dayOfMonthOf (t : Int) : Int := (civilFromDays (t / msPerDay)).2.2

/-- Month (1–12) of a time value, in UTC. -/
def monthOf (t : Int) : Int := (civilFromDays (t / msPerDay)).2.1

/-! ## The cron evaluator (`src/scheduling.ts`, `getNextCronTime`) -/

/-- Possible outcomes of `getNextCronTime`: a thrown error (`invalid`), a
finite time value, a `NaN` time value (the function returns
`Invalid Date .getTime() = NaN` without throwing), or non-termination of the
day-of-week `while` loop (`hang`). -/
inductive CronResult
  | invalid (msg : List Char)
  | time (t : Int)
  | nanTime
  | hang
deriving DecidableEq, Repr

/-- The day-of-week `while` loop of `getNextCronTime`, with fuel: as long as
`getDay()` differs from the target, add one day. Seven iterations always
suffice when the target is an actual weekday (0–6); when it is not, the
JavaScript loop never terminates, which the exhausted fuel (`none`) models. -/
def advanceDow (target : Int) : Nat → Int → Option Int
  | 0, _ => none
  | fuel + 1, t =>
    if dayOfWeek t = target then some t else advanceDow target fuel (t + msPerDay)

/-- Application of the minute field: `if (minute !== "*")
next.setMinutes(parseInt(minute, 10))`. `none` models an invalid date
(`setMinutes(NaN)`). -/
def applyMinuteField (f : List Char) (t : Option Int) : Option Int :=
  if f = ['*'] then t
  else
    match t with
    | none => none
    | some x =>
      match jsParseInt f with
      | some m => some (setMinutesUTC x m)
      | none => none

/-- Application of the hour field: `if (hour !== "*")
next.setHours(parseInt(hour, 10))`. -/
def applyHourField (f : List Char) (t : Option Int) : Option Int :=
  if f = ['*'] then t
  else
    match t with
    | none => none
    | some x =>
      match jsParseInt f with
      | some h => some (setHoursUTC x h)
      | none => none

/-- The step `if (next <= now) next.setDate(next.getDate() + 1)`; the
comparison is false for an invalid date. -/
def rollForwardIfPast (now : Int) : Option Int → Option Int
  | none => none
  | some t => if t ≤ now then some (t + msPerDay) else some t

/-- The day-of-week handling of `getNextCronTime`, including the return of
`next.getTime()`. An invalid date together with a non-`*` field loops forever
(`getDay()` is `NaN` and never equals the target); a non-`*` field that
parses to `NaN` or to a value outside 0–6 also loops forever. -/
def applyDowField (f : List Char) : Option Int → CronResult
  | none => if f = ['*'] then .nanTime else .hang
  | some t =>
    if f = ['*'] then .time t
    else
      match jsParseInt f with
      | none => .hang
      | some d =>
        match advanceDow d 7 t with
        | some t2 => .time t2
        | none => .hang

/-- Model of `getNextCronTime` of `src/scheduling.ts`, with the implicit `new Date()`
made explicit as the `now` parameter. Splits on single spaces, throws when
the field count is not 5, applies the minute, hour and day-of-week fields
(the day-of-month and month fields are read but never used by the source),
zeroes seconds, and rolls to the next day when the resulting time is not in
the future. -/
def getNextCronTime (cron : String) (now : Int) : CronResult :=
  match splitOnChar ' ' cron.data with
  | [minuteF, hourF, _dayOfMonthF, _monthF, dowF] =>
    applyDowField dowF
      (rollForwardIfPast now
        ((applyHourField hourF (applyMinuteField minuteF (some now))).map zeroSecondsAndMs))
  | _ => .invalid (("Invalid cron expression: ").data ++ cron.data)

/-! ## JavaScript numbers with `NaN` and `Infinity`

`scheduleNextAlarm` and `alarm` in `src/orchestrator/index.ts` compute with
time values that can be finite, `Infinity` (a reminder with neither kind of
schedule) or `NaN` (a cron expression whose field fails to parse). -/

/-- A JavaScript number restricted to the values arising in the scheduler:
`NaN`, `+Infinity`, or a finite integer. -/
inductive JsNum
  | nan
  | inf
  | fin (t : Int)
deriving DecidableEq, Repr

/-- JavaScript `<` on such numbers: every comparison involving `NaN` is
false, and `Infinity` is greater than every finite value. -/
def jsLt : JsNum → JsNum → Bool
  | .nan, _ => false
  | _, .nan => false
  | .inf, _ => false
  | .fin _, .inf => true
  | .fin a, .fin b => decide (a < b)

/-- JavaScript `Math.abs(x - now)` for `x` a scheduler time value and `now`
finite. -/
def jsAbsSub (x : JsNum) (now : Int) : JsNum :=
  match x with
  | .nan => .nan
  | .inf => .inf
  | .fin t => .fin |t - now|

/-! ## The store (`src/orchestrator/state.ts`)

Each SQL table is modelled as a list of rows in insertion order (SQLite
returns rows in rowid order when no `ORDER BY` is given, and
`INSERT OR REPLACE` deletes the conflicting row and appends a fresh one).
Embedding blobs are modelled as rational vectors. -/

/-- A row of the `conversation` table. -/
structure ConversationMessage where
  id : String
  role : String
  content : String
  timestamp : Int
  trigger : String
  source : Option String := none
deriving DecidableEq, Repr

/-- A row of the `journal` table. -/
structure JournalEntry where
  id : String
  timestamp : Int
  topic : String
  content : String
  embedding : Option (List ℚ) := none
deriving DecidableEq, Repr

/-- A row of the `state_files` table. -/
structure StateFile where
  name : String
  content : String
  updatedAt : Int
deriving DecidableEq, Repr

/-- A row of the `reminders` table. Exactly as in the source, nothing
prevents both schedule kinds from being absent or present. -/
structure Reminder where
  id : String
  description : String
  payload : String
  cronExpression : Option String := none
  scheduledTime : Option Int := none
  createdAt : Int := 0
deriving DecidableEq, Repr

/-- A row of the `summaries` table; the optional list fields are stored
JSON-encoded in the source and modelled structurally here. There is no
`fromTimestamp`/`toTimestamp`/`messageCount` column in the schema. -/
structure ConversationSummary where
  id : String
  timestamp : Int
  summary : String
  notes : Option String := none
  keyDecisions : Option (List String) := none
  openThreads : Option (List String) := none
  learnedPatterns : Option (List String) := none
deriving DecidableEq, Repr

/-- The `topics` row data returned to callers (no embedding). -/
structure Topic where
  id : String
  name : String
  content : String
  createdAt : Int
  updatedAt : Int
deriving DecidableEq, Repr

/-- A row of the `topics` table, including the embedding blob. -/
structure TopicRow where
  topic : Topic
  embedding : Option (List ℚ) := none
deriving DecidableEq, Repr

/-- The whole SQLite database of the orchestrator durable object. -/
structure OrchestratorState where
  conversation : List ConversationMessage := []
  journal : List JournalEntry := []
  stateFiles : List StateFile := []
  reminders : List Reminder := []
  summaries : List ConversationSummary := []
  topics : List TopicRow := []
deriving DecidableEq, Repr

/-- Model of `appendConversation`: plain `INSERT`. -/
def appendConversationS (st : OrchestratorState) (m : ConversationMessage) : OrchestratorState :=
  { st with conversation := st.conversation ++ [m] }

/-- Model of `clearConversation`: `DELETE FROM conversation` — every row, with no
`WHERE` clause. -/
def clearConversationS (st : OrchestratorState) : OrchestratorState :=
  { st with conversation := [] }

/-- Model of `saveJournalEntry`: plain `INSERT`. -/
def saveJournalEntryS (st : OrchestratorState) (e : JournalEntry) : OrchestratorState :=
  { st with journal := st.journal ++ [e] }

/-- Model of `saveStateFile`: `INSERT OR REPLACE` keyed on `name`. -/
def saveStateFileS (st : OrchestratorState) (f : StateFile) : OrchestratorState :=
  { st with stateFiles := st.stateFiles.filter (fun x => x.name ≠ f.name) ++ [f] }

/-- Model of `getStateFile`: lookup by name. -/
def getStateFileS (st : OrchestratorState) (name : String) : Option StateFile :=
  st.stateFiles.find? (fun x => x.name = name)

/-- Model of `saveReminder`: `INSERT OR REPLACE` keyed on `id`. -/
def saveReminderS (st : OrchestratorState) (r : Reminder) : OrchestratorState :=
  { st with reminders := st.reminders.filter (fun x => x.id ≠ r.id) ++ [r] }

/-- Model of `deleteReminder`: `DELETE ... WHERE id = ?`. -/
def deleteReminderS (st : OrchestratorState) (id : String) : OrchestratorState :=
  { st with reminders := st.reminders.filter (fun x => x.id ≠ id) }

/-- Model of `saveSummary`: plain `INSERT`. -/
def saveSummaryS (st : OrchestratorState) (s : ConversationSummary) : OrchestratorState :=
  { st with summaries := st.summaries ++ [s] }

/-- Model of `getRecentSummaries`: `ORDER BY timestamp DESC LIMIT ?`. -/
def getRecentSummariesS (st : OrchestratorState) (limit : Nat) : List ConversationSummary :=
  ((st.summaries.mergeSort (fun a b => decide (b.timestamp ≤ a.timestamp))).take limit)

/-- Model of `saveTopic`: `INSERT OR REPLACE` keyed on the unique `name`. The `id`
primary key is preserved by callers, so replacement by name matches the
source's conflict behaviour for the rows that actually arise. -/
def saveTopicS (st : OrchestratorState) (row : TopicRow) : OrchestratorState :=
  { st with topics := st.topics.filter (fun x => x.topic.name ≠ row.topic.name) ++ [row] }

/-- Model of `getTopic`: lookup by name, without the embedding. -/
def getTopicS (st : OrchestratorState) (name : String) : Option Topic :=
  (st.topics.find? (fun x => x.topic.name = name)).map (fun x => x.topic)

/-- Model of `listTopics`: `ORDER BY updated_at DESC`. -/
def listTopicsS (st : OrchestratorState) : List Topic :=
  (st.topics.map (fun x => x.topic)).mergeSort (fun a b => decide (b.updatedAt ≤ a.updatedAt))

/-! ## The scheduler (`src/orchestrator/index.ts`) -/

/-- Outcome of evaluating
`reminder.scheduledTime ?? (reminder.cronExpression ? getNextCronTime(...) : Infinity)`:
a number, a thrown error, or non-termination. Note that `??` is nullish
(so a stored `scheduledTime` of `0` is used as a time), while the ternary
tests truthiness (so an empty-string cron expression yields `Infinity`
without ever calling the evaluator). -/
inductive ResolvedTime
  | num (v : JsNum)
  | err (msg : List Char)
  | diverge
deriving DecidableEq, Repr

/-- The time of a reminder as computed by both `scheduleNextAlarm` and
`alarm`. -/
def resolveReminderTime (now : Int) (r : Reminder) : ResolvedTime :=
  match r.scheduledTime with
  | some t => .num (.fin t)
  | none =>
    match r.cronExpression with
    | some c =>
      if c = "" then .num .inf
      else
        match getNextCronTime c now with
        | .time t => .num (.fin t)
        | .nanTime => .num .nan
        | .invalid m => .err m
        | .hang => .diverge
    | none => .num .inf

/-- Truthiness test `!!reminder.scheduledTime` — truthiness, so a scheduled time of `0` does
not count as one-shot. -/
def isOneShot (r : Reminder) : Bool :=
  match r.scheduledTime with
  | some t => decide (t ≠ 0)
  | none => false

/-- Outcome of `scheduleNextAlarm`: install an alarm at a time, clear the
alarm, throw, or never terminate. -/
inductive AlarmOutcome
  | set (t : Int)
  | cleared
  | err (msg : List Char)
  | diverge
deriving DecidableEq, Repr

/-- The loop of `scheduleNextAlarm`, accumulating
`nextTime = min` over times that are strictly in the future (`time > now`),
with `nextTime` starting at `Infinity`. -/
def nextAlarmScan (now : Int) : List Reminder → JsNum → AlarmOutcome
  | [], acc =>
    match acc with
    | .fin t => .set t
    | _ => .cleared
  | r :: rest, acc =>
    match resolveReminderTime now r with
    | .err m => .err m
    | .diverge => .diverge
    | .num time =>
      let acc2 := if jsLt (.fin now) time && jsLt time acc then time else acc
      nextAlarmScan now rest acc2

/-- Model of `scheduleNextAlarm`: with no reminders the alarm is deleted; otherwise
the single next-fire alarm is installed at the minimum strictly-future time,
or deleted when there is none. -/
def scheduleNextAlarm (now : Int) (reminders : List Reminder) : AlarmOutcome :=
  if reminders = [] then .cleared
  else nextAlarmScan now reminders .inf

/-- Observable events of one `alarm()` run, in order. -/
inductive AlarmEvent
  | deleteRem (id : String)
  | dispatch (id : String) (payload : String)
  | installAlarm (t : Int)
  | clearAlarm
deriving DecidableEq, Repr

/-- Termination status of one `alarm()` run. -/
inductive ScanExit
  | ok
  | thrown (msg : List Char)
  | diverge
deriving DecidableEq, Repr

/-- The payload of the synthetic alarm trigger dispatched for a fired
reminder. -/
def alarmPayload (r : Reminder) : String :=
  "[REMINDER: " ++ r.description ++ "]\n\n" ++ r.payload

/-- The `for` loop of `alarm()`, iterating over the snapshot returned by
`getAllReminders` while deletions update the live table. A one-shot whose
time is before `now − 60000` is deleted and skipped; a reminder whose time
is strictly within 60 000 ms of `now` is dispatched, a one-shot being
deleted first; the dispatch itself is wrapped in `try/catch` in the source,
so its failures never escape. -/
def alarmScan (now : Int) : List Reminder → List Reminder →
    List AlarmEvent × List Reminder × ScanExit
  | [], store => ([], store, .ok)
  | r :: rest, store =>
    match resolveReminderTime now r with
    | .err m => ([], store, .thrown m)
    | .diverge => ([], store, .diverge)
    | .num time =>
      if isOneShot r && jsLt time (.fin (now - 60000)) then
        let out := alarmScan now rest (store.filter (fun x => x.id ≠ r.id))
        (.deleteRem r.id :: out.1, out.2)
      else if jsLt (jsAbsSub time now) (.fin 60000) then
        let store2 := if isOneShot r then store.filter (fun x => x.id ≠ r.id) else store
        let out := alarmScan now rest store2
        ((if isOneShot r then [AlarmEvent.deleteRem r.id] else []) ++
          AlarmEvent.dispatch r.id (alarmPayload r) :: out.1, out.2)
      else
        alarmScan now rest store

/-- One run of the `alarm()` handler: scan the reminder snapshot, then call
`scheduleNextAlarm` on the updated table. A throw anywhere (including from
the final reschedule) escapes the handler. -/
def alarmRun (now : Int) (store : List Reminder) :
    List AlarmEvent × List Reminder × ScanExit :=
  let out := alarmScan now store store
  match out.2.2 with
  | .ok =>
    match scheduleNextAlarm now out.2.1 with
    | .set t => (out.1 ++ [.installAlarm t], out.2.1, .ok)
    | .cleared => (out.1 ++ [.clearAlarm], out.2.1, .ok)
    | .err m => (out.1, out.2.1, .thrown m)
    | .diverge => (out.1, out.2.1, .diverge)
  | e => (out.1, out.2.1, e)

/-! ## ISO formatting helpers

Used by handlers that render timestamps with `toISOString`. -/

/-- Decimal rendering of a natural number left-padded with zeros. -/
def natPad (w : Nat) (n : Nat) : String :=
  let s := toString n
  String.mk (List.replicate (w - s.length) '0') ++ s

/-- The date part of `Date.prototype.toISOString` (`yyyy-mm-dd`), i.e. the
value of `toISOString().split('T')[0]` in the source. -/
def isoDatePart (t : Int) : String :=
  let ymd := civilFromDays (t / msPerDay)
  natPad 4 ymd.1.toNat ++ "-" ++ natPad 2 ymd.2.1.toNat ++ "-" ++ natPad 2 ymd.2.2.toNat

/-- Model of `Date.prototype.toISOString` for times at or after the epoch. -/
def toISOStringModel (t : Int) : String :=
  let ms := t % msPerDay
  isoDatePart t ++ "T" ++
    natPad 2 (ms / msPerHour).toNat ++ ":" ++
    natPad 2 (ms % msPerHour / msPerMinute).toNat ++ ":" ++
    natPad 2 (ms % msPerMinute / 1000).toNat ++ "." ++
    natPad 3 (ms % 1000).toNat ++ "Z"

/-! ## The MCP server (`src/orchestrator/mcp-server.ts`) -/

/-- The arguments object of a `tools/call` request, after the `as`-casts the
handlers perform. Required string fields are plain (the dispatcher performs
no schema validation, and the claims below only involve calls where they are
present); optional fields are `Option`. `datetime` is the raw ISO string
argument of `schedule_once`; its parse is the `parseDate` oracle of
`ToolEnv`. -/
structure ToolArgs where
  topic : String := ""
  content : String := ""
  query : String := ""
  name : String := ""
  message : String := ""
  chatId : Option String := none
  id : String := ""
  description : String := ""
  payload : String := ""
  cron : String := ""
  datetime : String := ""
  summary : String := ""
  notes : Option String := none
  keyDecisions : Option (List String) := none
  openThreads : Option (List String) := none
  learnedPatterns : Option (List String) := none
  count : Option Int := none
  limit : Option Int := none

/-- The ambient effects a tool execution can consult: the clock
(`Date.now()`), the UUID generator, the embedding model (`none` models the
`getEmbedding` failure throw), the configured Telegram chat id and send
outcome, the JavaScript date parser (`new Date(s).getTime()`, `none` for
`NaN`), locale date formatting, and the two semantic-search pipelines of
`./embeddings` (modelled in full further below as `searchJournalOrch` /
`searchTopicsOrch`; here only their formatted tool output is needed, so they
enter as oracles returning either the result text or a thrown message). -/
structure ToolEnv where
  now : Int
  newId : String := "uuid"
  embed : String → Option (List ℚ) := fun _ => none
  telegramChatId : Option String := none
  sendTelegramOk : Bool := false
  parseDate : String → Option Int := fun _ => none
  localeDate : Int → String := fun _ => ""
  journalSearchText : String → Int → Except String String := fun _ _ => .ok ""
  topicSearchText : String → Int → Except String String := fun _ _ => .ok ""

/-- Outcome of `executeToolInternal`: a returned result string, a thrown
error (whose message `handleToolCall` reports), or non-termination (only
reachable through a hanging cron evaluation inside `scheduleNextAlarm`). -/
inductive ToolOutcome
  | ok (text : String)
  | thrown (msg : String)
  | diverge
deriving Repr, DecidableEq

/-- The names handled by the `switch` of `executeToolInternal`, which
coincide with the advertised `TOOL_DEFINITIONS`. -/
def mcpToolNames : List String :=
  ["journal_write", "journal_search", "topic_write", "topic_get", "topic_list",
   "topic_search", "state_read", "state_write", "send_telegram",
   "schedule_recurring", "schedule_once", "cancel_reminder", "list_reminders",
   "save_conversation_summary", "get_recent_summaries"]

/-- The schedule string shown by `list_reminders`:
`r.cronExpression ?? (r.scheduledTime ? ISO : 'unknown')`. -/
def reminderScheduleText (r : Reminder) : String :=
  match r.cronExpression with
  | some c => c
  | none =>
    match r.scheduledTime with
    | some t => if t ≠ 0 then toISOStringModel t else "unknown"
    | none => "unknown"

/-- The rendering of one summary by `get_recent_summaries`. -/
def summaryText (s : ConversationSummary) : String :=
  String.intercalate "\n"
    (["**" ++ isoDatePart s.timestamp ++ "**: " ++ s.summary] ++
      (match s.notes with | some n => ["Notes: " ++ n] | none => []) ++
      (match s.keyDecisions with
        | some l => if l ≠ [] then ["Decisions: " ++ String.intercalate ", " l] else []
        | none => []) ++
      (match s.openThreads with
        | some l => if l ≠ [] then ["Open: " ++ String.intercalate ", " l] else []
        | none => []))

/-- Model of `executeToolInternal`: the tool `switch` of the MCP server. Each branch
mirrors the corresponding `case` of the source; the `default` branch throws
`Unknown tool: <name>`. The result is the outcome together with the store
state after the call — writes performed before a throw persist, as SQLite
writes inside a durable object do. -/
def executeToolInternal (env : ToolEnv) (st : OrchestratorState)
    (name : String) (args : ToolArgs) : ToolOutcome × OrchestratorState :=
  if name = "journal_write" then
    match env.embed (args.topic ++ ": " ++ args.content) with
    | none => (.thrown "Failed to generate embedding", st)
    | some emb =>
      let entry : JournalEntry :=
        { id := env.newId, timestamp := env.now, topic := args.topic,
          content := args.content, embedding := some emb }
      (.ok ("Journal entry saved: " ++ args.topic), saveJournalEntryS st entry)
  else if name = "journal_search" then
    match env.journalSearchText args.query (args.limit.getD 5) with
    | .ok text => (.ok text, st)
    | .error m => (.thrown m, st)
  else if name = "topic_write" then
    let existing := getTopicS st args.name
    let topic : Topic :=
      { id := (existing.map (·.id)).getD env.newId,
        name := args.name, content := args.content,
        createdAt := (existing.map (·.createdAt)).getD env.now,
        updatedAt := env.now }
    match env.embed (args.name ++ ": " ++ args.content) with
    | none => (.thrown "Failed to generate embedding", st)
    | some emb =>
      (.ok ((if existing.isSome then "Updated topic \"" else "Created topic \"") ++
          args.name ++ "\""),
        saveTopicS st { topic := topic, embedding := some emb })
  else if name = "topic_get" then
    match getTopicS st args.name with
    | none => (.ok ("Topic \"" ++ args.name ++ "\" not found."), st)
    | some t => (.ok ("# " ++ t.name ++ "\n\n" ++ t.content), st)
  else if name = "topic_list" then
    if st.topics = [] then (.ok "No topics yet.", st)
    else
      (.ok (String.intercalate "\n"
        ((listTopicsS st).map (fun t =>
          "- " ++ t.name ++ " (updated " ++ env.localeDate t.updatedAt ++ ")"))), st)
  else if name = "topic_search" then
    match env.topicSearchText args.query (args.limit.getD 5) with
    | .ok text => (.ok text, st)
    | .error m => (.thrown m, st)
  else if name = "state_read" then
    match getStateFileS st args.name with
    | none => (.ok ("State file \"" ++ args.name ++ "\" not found."), st)
    | some f => (.ok f.content, st)
  else if name = "state_write" then
    (.ok ("State file \"" ++ args.name ++ "\" saved."),
      saveStateFileS st { name := args.name, content := args.content, updatedAt := env.now })
  else if name = "send_telegram" then
    match (match args.chatId with | some c => some c | none => env.telegramChatId) with
    | none => (.ok "Error: No chat ID and TELEGRAM_CHAT_ID not configured", st)
    | some target =>
      if target = "" then (.ok "Error: No chat ID and TELEGRAM_CHAT_ID not configured", st)
      else if env.sendTelegramOk then (.ok "Message sent to Telegram", st)
      else (.ok "Failed to send Telegram message", st)
  else if name = "schedule_recurring" then
    let reminder : Reminder :=
      { id := args.id, description := args.description, payload := args.payload,
        cronExpression := some args.cron, scheduledTime := none, createdAt := env.now }
    let st2 := saveReminderS st reminder
    match scheduleNextAlarm env.now st2.reminders with
    | .err m => (.thrown (String.mk m), st2)
    | .diverge => (.diverge, st2)
    | _ =>
      (.ok ("Scheduled recurring reminder \"" ++ args.id ++ "\": " ++ args.description), st2)
  else if name = "schedule_once" then
    match env.parseDate args.datetime with
    | none => (.ok ("Invalid datetime: " ++ args.datetime), st)
    | some scheduledTime =>
      if scheduledTime ≤ env.now then
        (.ok ("Cannot schedule in the past: " ++ args.datetime), st)
      else
        let reminder : Reminder :=
          { id := args.id, description := args.description, payload := args.payload,
            cronExpression := none, scheduledTime := some scheduledTime,
            createdAt := env.now }
        let st2 := saveReminderS st reminder
        match scheduleNextAlarm env.now st2.reminders with
        | .err m => (.thrown (String.mk m), st2)
        | .diverge => (.diverge, st2)
        | _ =>
          (.ok ("Scheduled one-time reminder \"" ++ args.id ++ "\" for " ++ args.datetime), st2)
  else if name = "cancel_reminder" then
    (.ok ("Cancelled reminder \"" ++ args.id ++ "\""), deleteReminderS st args.id)
  else if name = "list_reminders" then
    if st.reminders = [] then (.ok "No scheduled reminders.", st)
    else
      (.ok (String.intercalate "\n"
        (st.reminders.map (fun r =>
          "- " ++ r.id ++ ": " ++ r.description ++ " (" ++ reminderScheduleText r ++ ")"))), st)
  else if name = "save_conversation_summary" then
    let entry : ConversationSummary :=
      { id := env.newId, timestamp := env.now, summary := args.summary,
        notes := args.notes, keyDecisions := args.keyDecisions,
        openThreads := args.openThreads, learnedPatterns := args.learnedPatterns }
    (.ok "Conversation summary saved. Buffer cleared.",
      clearConversationS (saveSummaryS st entry))
  else if name = "get_recent_summaries" then
    let summaries := getRecentSummariesS st (args.count.getD 3).toNat
    if summaries = [] then (.ok "No conversation summaries yet.", st)
    else (.ok (String.intercalate "\n\n---\n\n" (summaries.map summaryText)), st)
  else
    (.thrown ("Unknown tool: " ++ name), st)

/-- A JSON-RPC request id. -/
inductive JsonRpcId
  | str (s : String)
  | num (n : Int)
  | null
deriving DecidableEq, Repr

/-- The `content` envelope a tool call returns. -/
structure ToolCallContent where
  text : String
  isError : Bool := false
deriving DecidableEq, Repr

/-- The result payloads the server produces. -/
inductive RpcResultPayload
  | toolResult (content : ToolCallContent)
  | initializeResult
  | emptyResult
  | toolsList
deriving DecidableEq, Repr

/-- A JSON-RPC response: a `result` member or an `error` member. -/
inductive JsonRpcResponse
  | ok (id : JsonRpcId) (result : RpcResultPayload)
  | err (id : JsonRpcId) (code : Int) (message : String)
deriving DecidableEq, Repr

/-- Model of `handleToolCall`: run the tool and wrap the outcome. A normal return
becomes a `result` with the text envelope; a throw is caught and becomes a
`result` whose envelope has `isError: true` and text `Error: <message>` — it
is never a JSON-RPC `error`. `none` models the call never returning. -/
def handleToolCall (env : ToolEnv) (st : OrchestratorState) (id : JsonRpcId)
    (name : String) (args : ToolArgs) :
    Option (JsonRpcResponse × OrchestratorState) :=
  match executeToolInternal env st name args with
  | (.ok text, st2) =>
    some (.ok id (.toolResult { text := text, isError := false }), st2)
  | (.thrown m, st2) =>
    some (.ok id (.toolResult { text := "Error: " ++ m, isError := true }), st2)
  | (.diverge, _) => none

/-- Result of `handleJsonRpcRequest` on one request: a response, no response
(a notification), or no return at all. -/
inductive RpcStep
  | response (r : JsonRpcResponse)
  | noResponse
  | diverge
deriving Repr

/-- Model of `handleJsonRpcRequest`: the method dispatch of the MCP server. Unknown
methods — not unknown tools — produce the JSON-RPC error −32601. -/
def handleJsonRpcRequest (env : ToolEnv) (st : OrchestratorState)
    (method : String) (id : JsonRpcId) (toolName : String) (args : ToolArgs) :
    RpcStep × OrchestratorState :=
  if method = "initialize" then (.response (.ok id .initializeResult), st)
  else if method = "initialized" then (.noResponse, st)
  else if method = "ping" then (.response (.ok id .emptyResult), st)
  else if method = "tools/list" then (.response (.ok id .toolsList), st)
  else if method = "tools/call" then
    match handleToolCall env st id toolName args with
    | some (resp, st2) => (.response resp, st2)
    | none => (.diverge, st)
  else
    (.response (.err id (-32601) ("Method not found: " ++ method)), st)

/-! ## Semantic search, outie module (`src/outie/embeddings.ts`)

Vectors are normalised at storage time, scores are plain dot products, and
results with score at or below the threshold (0.30 for the journal, 0.35 for
topics) are dropped before sorting. Stored embeddings are JSON strings in
the source; the model holds the decoded vectors. The query-embedding step
(`getQueryEmbedding`) is an input here, since it calls the external model. -/

/-- The `dotProduct` helper: sum over the common indices. -/
def dotProduct (a b : List ℚ) : ℚ := (List.zipWith (· * ·) a b).sum

/-- One `searchJournal` result of the outie module. -/
structure JournalHit where
  entry : JournalEntry
  score : ℚ
deriving DecidableEq, Repr

/-- One `searchTopics` result of the outie module. -/
structure TopicHit where
  topic : Topic
  score : ℚ
deriving DecidableEq, Repr

/-- Model of `searchJournal` of the outie module: score every entry that has an
embedding, skip scores ≤ 0.3, sort descending (stable, as the runtime's
`Array.prototype.sort`), take the top `limit`. -/
def searchJournalOutie (queryEmbedding : List ℚ) (entries : List JournalEntry)
    (limit : Nat) : List JournalHit :=
  let scored := entries.filterMap (fun e =>
    match e.embedding with
    | none => none
    | some emb =>
      let score := dotProduct queryEmbedding emb
      if score ≤ 3 / 10 then none
      else some { entry := { e with embedding := none }, score := score })
  (scored.mergeSort (fun a b => decide (b.score ≤ a.score))).take limit

/-- Model of `searchTopics` of the outie module: the candidate list pairs each topic
with its stored embedding (`getTopicsWithEmbeddings` selects rows whose
embedding is non-null); scores ≤ 0.35 are skipped. -/
def searchTopicsOutie (queryEmbedding : List ℚ) (topics : List (Topic × List ℚ))
    (limit : Nat) : List TopicHit :=
  let scored := topics.filterMap (fun p =>
    let score := dotProduct queryEmbedding p.2
    if score ≤ 7 / 20 then none
    else some ({ topic := p.1, score := score } : TopicHit))
  (scored.mergeSort (fun a b => decide (b.score ≤ a.score))).take limit

/-! ## Semantic search, orchestrator module (`./embeddings` of the MCP server)

This is the pipeline the `journal_search` / `topic_search` tools run. It
computes full cosine similarity (embeddings here are raw `Float32Array`s,
not pre-normalised), performs **no** threshold filtering, sorts descending
and slices. Float arithmetic is modelled over the reals. -/

/-- Model of `cosineSimilarity`: 0 on length mismatch or zero denominator. -/
noncomputable def cosineSimilarity (a b : List ℝ) : ℝ :=
  if a.length ≠ b.length then 0
  else
    let dp := (List.zipWith (· * ·) a b).sum
    let nA := (a.map (fun x => x * x)).sum
    let nB := (b.map (fun x => x * x)).sum
    if Real.sqrt nA * Real.sqrt nB = 0 then 0 else dp / (Real.sqrt nA * Real.sqrt nB)

/-- A journal row as selected by the orchestrator's `searchJournal`
(`WHERE embedding IS NOT NULL ORDER BY timestamp DESC LIMIT 500`; the code
still re-checks the embedding for null). -/
structure OrchJournalRow where
  id : String
  timestamp : Int
  topic : String
  content : String
  embedding : Option (List ℝ) := none

/-- One result of the orchestrator's `searchJournal`. -/
structure OrchJournalHit where
  entry : JournalEntry
  score : ℝ

/-- One result of the orchestrator's `searchTopics`. -/
structure OrchTopicHit where
  topic : Topic
  score : ℝ

/-- The orchestrator's `searchJournal`, after the query embedding and the
SQL row selection: every row with an embedding is scored and kept — there is
no threshold — then sorted descending by score and sliced to `limit`. -/
noncomputable def searchJournalOrch (queryEmbedding : List ℝ)
    (rows : List OrchJournalRow) (limit : Nat) : List OrchJournalHit :=
  let results := rows.filterMap (fun row =>
    match row.embedding with
    | none => none
    | some emb =>
      some ({ entry := { id := row.id, timestamp := row.timestamp,
                         topic := row.topic, content := row.content,
                         embedding := none },
              score := cosineSimilarity queryEmbedding emb } : OrchJournalHit))
  (results.mergeSort (fun a b => decide (b.score ≤ a.score))).take limit

/-- A topic row as selected by the orchestrator's `searchTopics`. -/
structure OrchTopicRow where
  topic : Topic
  embedding : Option (List ℝ) := none

/-- The orchestrator's `searchTopics`: same pipeline, again with no
threshold. -/
noncomputable def searchTopicsOrch (queryEmbedding : List ℝ)
    (rows : List OrchTopicRow) (limit : Nat) : List OrchTopicHit :=
  let results := rows.filterMap (fun row =>
    match row.embedding with
    | none => none
    | some emb =>
      some ({ topic := row.topic,
              score := cosineSimilarity queryEmbedding emb } : OrchTopicHit))
  (results.mergeSort (fun a b => decide (b.score ≤ a.score))).take limit

/-- The orchestrator's `searchJournal` including its query-embedding step.
This module has a single embedding entry point, `getEmbedding`, used for
documents and queries alike; the search opens with
`const queryEmbedding = await getEmbedding(ai, query)` — the **bare** query
text, with no retrieval-instruction prefix. `model text` stands for the
vector `getEmbedding` returns for `text` (`none` for its throw, surfaced as
`Failed to generate embedding`). -/
noncomputable def searchJournalOrchFull (model : String → Option (List ℝ))
    (rows : List OrchJournalRow) (query : String) (limit : Nat) :
    Except String (List OrchJournalHit) :=
  match model query with
  | none => .error "Failed to generate embedding"
  | some queryEmbedding => .ok (searchJournalOrch queryEmbedding rows limit)

/-- The orchestrator's `searchTopics` including its query-embedding step:
again `getEmbedding(ai, query)` on the bare query text. -/
noncomputable def searchTopicsOrchFull (model : String → Option (List ℝ))
    (rows : List OrchTopicRow) (query : String) (limit : Nat) :
    Except String (List OrchTopicHit) :=
  match model query with
  | none => .error "Failed to generate embedding"
  | some queryEmbedding => .ok (searchTopicsOrch queryEmbedding rows limit)

/-! ## The outie embedder entry points (`src/outie/embeddings.ts`) -/

/-- The BGE retrieval-instruction string prepended to queries. -/
def QUERY_INSTRUCTION : String :=
  "Represent this sentence for searching relevant passages: "

/-- Model of `normalize`: divide by the Euclidean norm; a zero-norm vector is
returned unchanged. -/
noncomputable def normalizeVec (v : List ℝ) : List ℝ :=
  let n := Real.sqrt ((v.map (fun x => x * x)).sum)
  if n = 0 then v else v.map (fun x => x / n)

/-- Model of `getEmbedding` of the outie module: run the external model on the text
(an oracle here; `none` models a response without data) and normalise, or
throw `Failed to generate embedding`. -/
noncomputable def getEmbeddingOutie (model : String → Option (List ℝ))
    (text : String) : Except String (List ℝ) :=
  match model text with
  | some data => .ok (normalizeVec data)
  | none => .error "Failed to generate embedding"

/-- Model of `getQueryEmbedding`: embed the instruction text followed by the query —
the document path on a different input, not a separate code path. -/
noncomputable def getQueryEmbedding (model : String → Option (List ℝ))
    (query : String) : Except String (List ℝ) :=
  getEmbeddingOutie model (QUERY_INSTRUCTION ++ query)

/-! ## The MCP bridge (container process, `forwardToDO` and HTTP endpoint) -/

/-- The per-request deadline `forwardToDO` installs with `setTimeout`. -/
def REQUEST_TIMEOUT_MS : Int := 30000

/-- How the pending promise of a forwarded request can settle: the DO
responds in time; the 30 000 ms timer fires first and rejects with
`Request timeout`; or the uplink closes and rejects with
`DO connection closed`. -/
inductive BridgeForwardResult
  | resolved (response : String)
  | timedOut
  | connectionClosed
deriving DecidableEq, Repr

/-- Body of the bridge's HTTP reply: the DO's JSON passed through, or a
JSON-RPC error object assembled by the bridge. -/
inductive BridgeBody
  | passthrough (response : String)
  | rpcError (id : JsonRpcId) (code : Int) (message : String)
deriving DecidableEq, Repr

/-- An HTTP response of the bridge. -/
structure BridgeHttpResponse where
  status : Int
  body : BridgeBody
deriving DecidableEq, Repr

/-- The `POST /mcp` handler of the bridge: with no uplink, reply 503 with
code −32000 `DO not connected`; otherwise await `forwardToDO` and either
pass the response through (200) or, in the `catch`, reply 500 with code
−32603 and the rejection's message (`Request timeout` for the deadline,
`DO connection closed` for an uplink drop). -/
def bridgeHandleMcpPost (doConnected : Bool) (bodyId : JsonRpcId)
    (forward : BridgeForwardResult) : BridgeHttpResponse :=
  if ¬doConnected then
    { status := 503, body := .rpcError bodyId (-32000) "DO not connected" }
  else
    match forward with
    | .resolved r => { status := 200, body := .passthrough r }
    | .timedOut => { status := 500, body := .rpcError .null (-32603) "Request timeout" }
    | .connectionClosed =>
      { status := 500, body := .rpcError .null (-32603) "DO connection closed" }

/-! ## The session coordinator (`Orchestrator.invoke`) -/

/-- The in-memory session flags of the orchestrator instance. -/
structure SessionState where
  isProcessing : Bool := false
  currentSessionId : Option String := none
deriving DecidableEq, Repr

/-- Outcomes of the awaited external operations `invoke` performs, in
program order: sandbox readiness polling, the MCP-bridge connection, client
creation, whether `session.abort` resolves, what `session.create` returns
(`none` covers both a throw and a missing `data`), and what
`session.prompt` does. -/
structure InvokeWorld where
  sandboxReady : Bool := true
  bridgeConnects : Bool := true
  clientCreates : Bool := true
  abortSucceeds : Bool := false
  createdSession : Option String := none
  promptResult : Except String String := .error ""

/-- The control flow of `Orchestrator.invoke` restricted to the session
flags (store writes do not touch them): any failure before the session logic
leaves the flags as they were; an interrupted session is reused; otherwise a
new session id is recorded; `isProcessing` is set immediately before
`session.prompt` and reset in the `finally` on both the success and the
throw path of the prompt. -/
def invokeModel (w : InvokeWorld) (s : SessionState) :
    Except String String × SessionState :=
  if ¬w.sandboxReady then (.error "Sandbox not ready", s)
  else if ¬w.bridgeConnects then (.error "MCP bridge connection failed", s)
  else if ¬w.clientCreates then (.error "Failed to create OpenCode client", s)
  else
    let wasInterrupted := s.isProcessing && s.currentSessionId.isSome && w.abortSucceeds
    let step : Except String (String × SessionState) :=
      match s.currentSessionId with
      | some sid =>
        if wasInterrupted then .ok (sid, s)
        else
          match w.createdSession with
          | none => .error "Failed to create OpenCode session"
          | some nid => .ok (nid, { s with currentSessionId := some nid })
      | none =>
        match w.createdSession with
        | none => .error "Failed to create OpenCode session"
        | some nid => .ok (nid, { s with currentSessionId := some nid })
    match step with
    | .error e => (.error e, s)
    | .ok (_, s1) =>
      let s2 := { s1 with isProcessing := true }
      match w.promptResult with
      | .error e => (.error e, { s2 with isProcessing := false })
      | .ok resp => (.ok resp, { s2 with isProcessing := false })

/-! ## Derived predicates used by the claim statements -/

/-- A cron field that the amended cron claim covers: `*`, or an integer
literal within the given bound. -/
def fieldOk (bound : Int) (f : List Char) : Prop :=
  f = ['*'] ∨ ∃ v, jsParseInt f = some v ∧ 0 ≤ v ∧ v < bound

/-- Whether a reminder's time evaluation neither throws nor loops. -/
def reminderResolves (now : Int) (r : Reminder) : Bool :=
  match resolveReminderTime now r with
  | .num _ => true
  | _ => false

/-- The events one reminder contributes to an `alarm()` scan. -/
def eventsFor (now : Int) (r : Reminder) : List AlarmEvent :=
  match resolveReminderTime now r with
  | .num time =>
    if isOneShot r && jsLt time (.fin (now - 60000)) then
      [.deleteRem r.id]
    else if jsLt (jsAbsSub time now) (.fin 60000) then
      (if isOneShot r then [AlarmEvent.deleteRem r.id] else []) ++
        [AlarmEvent.dispatch r.id (alarmPayload r)]
    else []
  | _ => []

/-- Whether an `alarm()` scan deletes the reminder from the table. -/
def alarmDeletes (now : Int) (r : Reminder) : Bool :=
  match resolveReminderTime now r with
  | .num time =>
    isOneShot r &&
      (jsLt time (.fin (now - 60000)) || jsLt (jsAbsSub time now) (.fin 60000))
  | _ => false

/-- Whether a row survives all deletions of a scan over `snapshot`. -/
def keptAfterScan (now : Int) (snapshot : List Reminder) (x : Reminder) : Bool :=
  snapshot.all (fun r => !alarmDeletes now r || decide (x.id ≠ r.id))

/-- Event `a` occurs strictly before `b` in the list. -/
def Precedes (a b : AlarmEvent) (l : List AlarmEvent) : Prop :=
  ∃ l1 l2 l3, l = l1 ++ a :: (l2 ++ b :: l3)

/-! ## Row values built by the scheduling and summary handlers

Abbreviations for the object literals the handlers construct, used to keep
theorem statements readable. -/

/-- The reminder object `schedule_recurring` builds. -/
def recurringReminderOf (env : ToolEnv) (args : ToolArgs) : Reminder :=
  { id := args.id, description := args.description, payload := args.payload,
    cronExpression := some args.cron, scheduledTime := none, createdAt := env.now }

/-- The reminder object `schedule_once` builds from the parsed datetime. -/
def onceReminderOf (env : ToolEnv) (args : ToolArgs) (t : Int) : Reminder :=
  { id := args.id, description := args.description, payload := args.payload,
    cronExpression := none, scheduledTime := some t, createdAt := env.now }

/-- The summary row `save_conversation_summary` builds. -/
def summaryRowOf (env : ToolEnv) (args : ToolArgs) : ConversationSummary :=
  { id := env.newId, timestamp := env.now, summary := args.summary,
    notes := args.notes, keyDecisions := args.keyDecisions,
    openThreads := args.openThreads, learnedPatterns := args.learnedPatterns }

/-- A one-shot reminder row, as stored by `schedule_once` (used to state
concrete scheduler scenarios). -/
def oneShotReminder (i d p : String) (t : Int) : Reminder :=
  { id := i, description := d, payload := p, cronExpression := none,
    scheduledTime := some t, createdAt := 0 }

/-! ## Helper reduction lemmas for the tool dispatcher -/

/-- Reduction of the dispatcher at the `save_conversation_summary` branch. -/
theorem exec_save_summary_eq (env : ToolEnv) (st : OrchestratorState) (args : ToolArgs) :
    executeToolInternal env st "save_conversation_summary" args =
      (.ok "Conversation summary saved. Buffer cleared.",
        clearConversationS (saveSummaryS st (summaryRowOf env args))) := rfl

/-- Reduction of the dispatcher at the `schedule_once` branch. -/
theorem exec_schedule_once_eq (env : ToolEnv) (st : OrchestratorState) (args : ToolArgs) :
    executeToolInternal env st "schedule_once" args =
      (match env.parseDate args.datetime with
       | none => (.ok ("Invalid datetime: " ++ args.datetime), st)
       | some t =>
         if t ≤ env.now then
           (.ok ("Cannot schedule in the past: " ++ args.datetime), st)
         else
           match scheduleNextAlarm env.now
               (saveReminderS st (onceReminderOf env args t)).reminders with
           | .err m => (.thrown (String.mk m), saveReminderS st (onceReminderOf env args t))
           | .diverge => (.diverge, saveReminderS st (onceReminderOf env args t))
           | _ => (.ok ("Scheduled one-time reminder \"" ++ args.id ++ "\" for " ++
               args.datetime), saveReminderS st (onceReminderOf env args t))) := rfl

/-- Reduction of the dispatcher at the `schedule_recurring` branch. -/
theorem exec_schedule_recurring_eq (env : ToolEnv) (st : OrchestratorState) (args : ToolArgs) :
    executeToolInternal env st "schedule_recurring" args =
      (match scheduleNextAlarm env.now
           (saveReminderS st (recurringReminderOf env args)).reminders with
       | .err m => (.thrown (String.mk m), saveReminderS st (recurringReminderOf env args))
       | .diverge => (.diverge, saveReminderS st (recurringReminderOf env args))
       | _ => (.ok ("Scheduled recurring reminder \"" ++ args.id ++ "\": " ++
           args.description), saveReminderS st (recurringReminderOf env args))) := rfl

/-! ## Claim C1 -/

/-- Claim C1, counterexample: calling `save_conversation_summary` at
`now = 0` on a buffer holding one message with timestamp 99999 deletes that
message even though its timestamp is strictly greater than the written
summary row's timestamp (the only timestamp the row carries — the schema has
no `toTimestamp` column at all). This falsifies "no Message with a later
timestamp is removed by the call". -/
theorem c1_counterexample :
    (executeToolInternal { now := 0 }
        { conversation :=
            [{ id := "m1", role := "user", content := "hi", timestamp := 99999,
               trigger := "message" }] }
        "save_conversation_summary" { summary := "s" }) =
      (.ok "Conversation summary saved. Buffer cleared.",
        { conversation := ([] : List ConversationMessage),
          summaries := [{ id := "uuid", timestamp := 0, summary := "s" }] }) ∧
    (99999 : Int) > 0 :=
  ⟨rfl, by decide⟩

/-- Claim C1, amended: `save_conversation_summary` writes exactly one
summary row (timestamped at the call) and, in the same atomic call, deletes
every message in the conversation buffer regardless of timestamp
(`DELETE FROM conversation` has no `WHERE` clause); in particular every
message with timestamp at most the summary's timestamp is deleted, and no
other table is touched. -/
theorem c1_summary_clears_whole_buffer (env : ToolEnv) (st : OrchestratorState)
    (args : ToolArgs) :
    executeToolInternal env st "save_conversation_summary" args =
      (.ok "Conversation summary saved. Buffer cleared.",
        { st with
            conversation := [],
            summaries := st.summaries ++ [summaryRowOf env args] }) ∧
    (∀ m ∈ st.conversation, m.timestamp ≤ env.now →
      m ∉ (executeToolInternal env st "save_conversation_summary" args).2.conversation) := by
  refine ⟨rfl, ?_⟩
  intro m _ _
  rw [exec_save_summary_eq]
  simp [clearConversationS, saveSummaryS]

/-- Claim C1, witness: the amended statement evaluated on a concrete buffer
of two messages. -/
theorem c1_witness :
    executeToolInternal { now := 50 }
        { conversation :=
            [{ id := "m1", role := "user", content := "a", timestamp := 10,
               trigger := "message" },
             { id := "m2", role := "assistant", content := "b", timestamp := 20,
               trigger := "message" }] }
        "save_conversation_summary" { summary := "wrap" } =
      (.ok "Conversation summary saved. Buffer cleared.",
        { conversation := ([] : List ConversationMessage),
          summaries := [{ id := "uuid", timestamp := 50, summary := "wrap" }] }) :=
  (c1_summary_clears_whole_buffer { now := 50 }
    { conversation :=
        [{ id := "m1", role := "user", content := "a", timestamp := 10,
           trigger := "message" },
         { id := "m2", role := "assistant", content := "b", timestamp := 20,
           trigger := "message" }] }
    { summary := "wrap" }).1

/-! ## Claim C4 -/

/-- Claim C4, counterexample: a `tools/call` for the unregistered name
`does_not_exist` yields a successful JSON-RPC response whose tool envelope
has `isError: true` — not a JSON-RPC error with code −32601. -/
theorem c4_counterexample :
    handleToolCall { now := 0 } {} (JsonRpcId.num 1) "does_not_exist" {} =
      some (JsonRpcResponse.ok (JsonRpcId.num 1)
          (.toolResult { text := "Error: Unknown tool: does_not_exist", isError := true }),
        ({} : OrchestratorState)) := rfl

/-- Claim C4, amended: an unknown tool name in `tools/call` produces a
successful JSON-RPC `result` whose envelope is `isError: true` with text
`Error: Unknown tool: <name>`, leaving the store untouched; the −32601
`Method not found` error is produced only for unknown top-level methods. -/
theorem c4_unknown_tool_envelope (env : ToolEnv) (st : OrchestratorState)
    (id : JsonRpcId) (name : String) (args : ToolArgs) (h : name ∉ mcpToolNames) :
    handleToolCall env st id name args =
      some (.ok id
          (.toolResult { text := "Error: " ++ ("Unknown tool: " ++ name), isError := true }),
        st) ∧
    (∀ method : String,
      method ∉ ["initialize", "initialized", "ping", "tools/list", "tools/call"] →
      handleJsonRpcRequest env st method id name args =
        (.response (.err id (-32601) ("Method not found: " ++ method)), st)) := by
  simp only [mcpToolNames, List.mem_cons, List.not_mem_nil, or_false, not_or] at h
  obtain ⟨h1, h2, h3, h4, h5, h6, h7, h8, h9, h10, h11, h12, h13, h14, h15⟩ := h
  constructor
  · simp [handleToolCall, executeToolInternal, h1, h2, h3, h4, h5, h6, h7, h8, h9,
      h10, h11, h12, h13, h14, h15]
  · intro method hm
    simp only [List.mem_cons, List.not_mem_nil, or_false, not_or] at hm
    obtain ⟨g1, g2, g3, g4, g5⟩ := hm
    simp [handleJsonRpcRequest, g1, g2, g3, g4, g5]

/-- Claim C4, witness: the amended statement at the unknown name `nope`. -/
theorem c4_witness :
    handleToolCall { now := 3 } {} (JsonRpcId.str "a") "nope" {} =
      some (JsonRpcResponse.ok (JsonRpcId.str "a")
          (.toolResult { text := "Error: Unknown tool: nope", isError := true }),
        ({} : OrchestratorState)) :=
  (c4_unknown_tool_envelope { now := 3 } {} (JsonRpcId.str "a") "nope" {} (by decide)).1

/-! ## Claim C7 -/

/-- Claim C7, counterexample: a `schedule_once` call whose datetime parses
to exactly the current time (`now = 1000`) is rejected with
`Cannot schedule in the past` and no reminder is stored — the comparison in
the source is `scheduledTime <= Date.now()`. This falsifies the claim that
scheduling exactly at `now` succeeds. -/
theorem c7_counterexample :
    executeToolInternal { now := 1000, parseDate := fun _ => some 1000 } {}
        "schedule_once" { id := "r1", description := "d", payload := "p", datetime := "T" } =
      (.ok "Cannot schedule in the past: T", ({} : OrchestratorState)) ∧
    ({} : OrchestratorState).reminders = [] :=
  ⟨rfl, rfl⟩

/-- Claim C7, amended: `schedule_once` rejects every datetime that parses to
a value at most the current time — a datetime exactly equal to `now` is
rejected as "in the past", not treated as fire-now — and accepts exactly the
strictly future ones, storing the reminder. -/
theorem c7_schedule_once_rejects_now (env : ToolEnv) (st : OrchestratorState)
    (args : ToolArgs) (t : Int) (hp : env.parseDate args.datetime = some t) :
    (t ≤ env.now →
      executeToolInternal env st "schedule_once" args =
        (.ok ("Cannot schedule in the past: " ++ args.datetime), st)) ∧
    (env.now < t →
      (executeToolInternal env st "schedule_once" args).2.reminders =
        st.reminders.filter (fun x => x.id ≠ args.id) ++ [onceReminderOf env args t]) := by
  constructor
  · intro hle
    rw [exec_schedule_once_eq, hp]
    simp [hle]
  · intro hlt
    rw [exec_schedule_once_eq, hp]
    have : ¬(t ≤ env.now) := by omega
    simp only [this, if_false, if_neg this]
    cases hsch : scheduleNextAlarm env.now
        (saveReminderS st (onceReminderOf env args t)).reminders <;>
      simp [hsch, saveReminderS, onceReminderOf]

/-- Claim C7, witness: the amended statement at `now = 1000` for a datetime
parsing to 1000 (rejected) and another parsing to 1001 (accepted). -/
theorem c7_witness :
    (executeToolInternal { now := 1000, parseDate := fun _ => some 1000 } {}
        "schedule_once" { id := "r1", datetime := "T" } =
      (.ok "Cannot schedule in the past: T", ({} : OrchestratorState))) ∧
    (executeToolInternal { now := 1000, parseDate := fun _ => some 1001 } {}
        "schedule_once" { id := "r1", datetime := "T" }).2.reminders =
      [onceReminderOf { now := 1000, parseDate := fun _ => some 1001 }
        { id := "r1", datetime := "T" } 1001] :=
  ⟨(c7_schedule_once_rejects_now { now := 1000, parseDate := fun _ => some 1000 } {}
      { id := "r1", datetime := "T" } 1000 rfl).1 (by decide),
   (c7_schedule_once_rejects_now { now := 1000, parseDate := fun _ => some 1001 } {}
      { id := "r1", datetime := "T" } 1001 rfl).2 (by decide)⟩

/-! ## Claim C8 -/

/-- Claim C8, counterexample: when the 30-second deadline fires, the
bridge's HTTP reply carries JSON-RPC error code −32603 (the generic `catch`
code) with message `Request timeout` — not code −32000, which the bridge
uses only for `DO not connected`. -/
theorem c8_counterexample :
    bridgeHandleMcpPost true (JsonRpcId.num 7) .timedOut =
      { status := 500, body := .rpcError .null (-32603) "Request timeout" } ∧
    (-32603 : Int) ≠ -32000 :=
  ⟨rfl, by decide⟩

/-- Claim C8, amended: exceeding the 30 000 ms per-request deadline makes
the bridge reply HTTP 500 with JSON-RPC error −32603 `Request timeout`
(and an uplink drop −32603 `DO connection closed`); code −32000 is produced
only when no uplink is connected, with HTTP 503 and message
`DO not connected`. -/
theorem c8_timeout_error_code (bodyId : JsonRpcId) :
    REQUEST_TIMEOUT_MS = 30000 ∧
    bridgeHandleMcpPost true bodyId .timedOut =
      { status := 500, body := .rpcError .null (-32603) "Request timeout" } ∧
    bridgeHandleMcpPost true bodyId .connectionClosed =
      { status := 500, body := .rpcError .null (-32603) "DO connection closed" } ∧
    (∀ fwd, bridgeHandleMcpPost false bodyId fwd =
      { status := 503, body := .rpcError bodyId (-32000) "DO not connected" }) := by
  refine ⟨rfl, rfl, rfl, fun fwd => ?_⟩
  simp [bridgeHandleMcpPost]

/-- Claim C8, witness: the amended statement instantiated at a string id. -/
theorem c8_witness :
    bridgeHandleMcpPost true (JsonRpcId.str "q") .timedOut =
      { status := 500, body := .rpcError .null (-32603) "Request timeout" } :=
  (c8_timeout_error_code (JsonRpcId.str "q")).2.1

/-! ## Claim C9 -/

/-- Claim C9: on every path through `invoke` — every combination of failures
of the awaited steps and of the prompt outcome — the instance does not end
the call with `isProcessing` newly set: if the flag was clear on entry it is
clear on exit, and every successful call ends with it clear whatever the
entry state, because the flag is set only immediately before
`session.prompt` and reset in the `finally`. -/
theorem c9_isProcessing_cleared (w : InvokeWorld) (s : SessionState) :
    (s.isProcessing = false → (invokeModel w s).2.isProcessing = false) ∧
    (∀ r, (invokeModel w s).1 = .ok r → (invokeModel w s).2.isProcessing = false) := by
  obtain ⟨sr, bc, cc, ab, cs, pr⟩ := w
  obtain ⟨ip, sid⟩ := s
  simp only [invokeModel]
  cases sr <;> cases bc <;> cases cc <;> cases sid <;> cases cs <;> cases pr <;>
    cases ip <;> cases ab <;> simp_all

/-- Claim C9, witness: a run in which the prompt succeeds, starting from the
idle state. -/
theorem c9_witness :
    (invokeModel { createdSession := some "s1", promptResult := .ok "hi" } {}).2.isProcessing
      = false :=
  (c9_isProcessing_cleared { createdSession := some "s1", promptResult := .ok "hi" } {}).1 rfl

/-! ## Claim C6 -/

/-- Claim C6, counterexample: the pipeline behind the `journal_search` MCP
tool embeds the query with **no** instruction prefix. With a model that maps
the bare query `"cats"` to `[1]` and every other text — in particular the
instruction-prefixed `QUERY_INSTRUCTION ++ "cats"` — to `[0]`, the
orchestrator search scores a `[1]`-embedded row at 1, the cosine of the
bare-query embedding; had the query been embedded over the prefixed text,
the same pipeline would have scored that row at 0. So for the cited tool
path the query embedding is computed over `x` alone, through the same
`getEmbedding` entry point as documents, refuting the claim. -/
theorem c6_counterexample :
    searchJournalOrchFull (fun s => if s = "cats" then some [(1 : ℝ)] else some [0])
        [{ id := "e1", timestamp := 1, topic := "t", content := "c",
           embedding := some [1] }] "cats" 5 =
      .ok [{ entry := { id := "e1", timestamp := 1, topic := "t", content := "c" },
             score := 1 }] ∧
    (fun s => if s = "cats" then some [(1 : ℝ)] else some [0])
        (QUERY_INSTRUCTION ++ "cats") = some [0] ∧
    searchJournalOrch [0]
        [{ id := "e1", timestamp := 1, topic := "t", content := "c",
           embedding := some [1] }] 5 =
      [{ entry := { id := "e1", timestamp := 1, topic := "t", content := "c" },
         score := 0 }] ∧
    (1 : ℝ) ≠ 0 := by
  refine ⟨?_, ?_, ?_, by norm_num⟩
  · have hcos : cosineSimilarity [(1 : ℝ)] [1] = 1 := by
      norm_num [cosineSimilarity]
    simp [searchJournalOrchFull, searchJournalOrch, hcos, List.mergeSort_singleton]
  · simp only []
    rw [if_neg (by decide : ¬(QUERY_INSTRUCTION ++ "cats" = "cats"))]
  · have hcos : cosineSimilarity [(0 : ℝ)] [1] = 0 := by
      norm_num [cosineSimilarity]
    simp [searchJournalOrch, hcos, List.mergeSort_singleton]

/-- Claim C6, amended: the two embedder entry points exist only in the outie
module, where `getQueryEmbedding` is the document embedder applied to the
fixed retrieval-instruction prefix concatenated with the query — an input
that differs from the query for every x, so the two embeddings differ
whenever the model distinguishes the two texts. The orchestrator module
behind the MCP semantic-search tools instead embeds the bare query through
its single `getEmbedding` entry point: its `searchJournal` / `searchTopics`
results depend only on the model's output at the query text itself — two
models that agree on the bare query give identical results however they
differ on the instruction-prefixed text, i.e. the entry points are collapsed
there. -/
theorem c6_embedding_entry_points (model : String → Option (List ℝ))
    (x : String) (hx : x ≠ "") :
    getQueryEmbedding model x = getEmbeddingOutie model (QUERY_INSTRUCTION ++ x) ∧
    QUERY_INSTRUCTION ++ x ≠ x ∧
    (getEmbeddingOutie model (QUERY_INSTRUCTION ++ x) ≠ getEmbeddingOutie model x →
      getQueryEmbedding model x ≠ getEmbeddingOutie model x) ∧
    (∀ m m' : String → Option (List ℝ), ∀ rows q lim, m q = m' q →
      searchJournalOrchFull m rows q lim = searchJournalOrchFull m' rows q lim) ∧
    (∀ m m' : String → Option (List ℝ), ∀ trows q lim, m q = m' q →
      searchTopicsOrchFull m trows q lim = searchTopicsOrchFull m' trows q lim) := by
  refine ⟨rfl, ?_, fun hne => hne, ?_, ?_⟩
  · intro hcontra
    have hlen := congrArg String.length hcontra
    rw [String.length_append] at hlen
    have : QUERY_INSTRUCTION.length = 57 := rfl
    omega
  · intro m m' rows q lim h
    simp only [searchJournalOrchFull, h]
  · intro m m' trows q lim h
    simp only [searchTopicsOrchFull, h]

/-- Claim C6, witness: the outie asymmetry at the query `"cats"`, and the
orchestrator pipeline's indifference to the model's behaviour away from the
bare query — two models agreeing only on `"cats"` give the same tool
result. -/
theorem c6_witness :
    QUERY_INSTRUCTION ++ "cats" ≠ "cats" ∧
    searchJournalOrchFull (fun s => if s = "cats" then some [(1 : ℝ)] else some [0])
        [] "cats" 5 =
      searchJournalOrchFull (fun _ => some [(1 : ℝ)]) [] "cats" 5 :=
  ⟨(c6_embedding_entry_points (fun _ => none) "cats" (by decide)).2.1,
   (c6_embedding_entry_points (fun _ => none) "cats" (by decide)).2.2.2.1
     (fun s => if s = "cats" then some [(1 : ℝ)] else some [0])
     (fun _ => some [(1 : ℝ)]) [] "cats" 5 (by simp)⟩

/-! ## Helper lemmas for the search pipelines -/

/-- Sorting by descending score and taking a slice yields a list that is
pairwise descending. -/
theorem pairwise_mergeSortTake {α : Type _} {β : Type _} [LinearOrder β]
    (f : α → β) (l : List α) (n : Nat) :
    ((l.mergeSort (fun a b => decide (f b ≤ f a))).take n).Pairwise
      (fun a b => f b ≤ f a) := by
  refine List.Pairwise.sublist (List.take_sublist n _) ?_
  have hs := @List.sorted_mergeSort _ (fun a b => decide (f b ≤ f a))
    (fun a b c hab hbc =>
      decide_eq_true (le_trans (of_decide_eq_true hbc) (of_decide_eq_true hab)))
    (fun a b => by
      rcases le_total (f b) (f a) with h | h <;> simp [h]) l
  exact hs.imp (fun h => of_decide_eq_true h)

/-- Membership in a sorted-and-sliced list implies membership in the
original list. -/
theorem mem_of_mem_mergeSortTake {α : Type _} {le : α → α → Bool} {x : α}
    {l : List α} {n : Nat} (h : x ∈ (l.mergeSort le).take n) : x ∈ l :=
  (List.mergeSort_perm l le).subset (List.take_subset n _ h)

/-! ## Claim C5 -/

/-- Claim C5, counterexample: the orchestrator-module `searchJournal` — the
pipeline behind the `journal_search` tool — returns a result whose score is
0, which is not strictly greater than 0.30: it applies no threshold filter.
(The query and the stored embedding are orthogonal unit vectors, so the
cosine similarity is exactly 0.) -/
theorem c5_counterexample :
    searchJournalOrch [1, 0]
        [{ id := "e1", timestamp := 5, topic := "t", content := "c",
           embedding := some [0, 1] }] 5 =
      [{ entry := { id := "e1", timestamp := 5, topic := "t", content := "c" },
         score := 0 }] ∧
    ¬((3 : ℝ) / 10 < 0) := by
  constructor
  · have hcos : cosineSimilarity [(1 : ℝ), 0] [0, 1] = 0 := by
      simp [cosineSimilarity]
    simp [searchJournalOrch, List.mergeSort_singleton, hcos]
  · norm_num

/-- Claim C5, amended: the outie-module `searchJournal` and `searchTopics`
return only results with score strictly above 0.30 and 0.35 respectively,
sorted by score descending, at most `k` of them; the orchestrator-module
`searchJournal` / `searchTopics` (used by the MCP search tools) also sort
descending and return at most `k` results but apply no score threshold. -/
theorem c5_search_pipelines (qJ : List ℚ) (entries : List JournalEntry) (limJ : Nat)
    (qT : List ℚ) (topics : List (Topic × List ℚ)) (limT : Nat)
    (qO : List ℝ) (rows : List OrchJournalRow) (limO : Nat)
    (qP : List ℝ) (trows : List OrchTopicRow) (limP : Nat) :
    (∀ hit ∈ searchJournalOutie qJ entries limJ, 3 / 10 < hit.score) ∧
    (∀ hit ∈ searchTopicsOutie qT topics limT, 7 / 20 < hit.score) ∧
    (searchJournalOutie qJ entries limJ).Pairwise (fun a b => b.score ≤ a.score) ∧
    (searchJournalOutie qJ entries limJ).length ≤ limJ ∧
    (searchTopicsOutie qT topics limT).Pairwise (fun a b => b.score ≤ a.score) ∧
    (searchTopicsOutie qT topics limT).length ≤ limT ∧
    (searchJournalOrch qO rows limO).Pairwise (fun a b => b.score ≤ a.score) ∧
    (searchJournalOrch qO rows limO).length ≤ limO ∧
    (searchTopicsOrch qP trows limP).Pairwise (fun a b => b.score ≤ a.score) ∧
    (searchTopicsOrch qP trows limP).length ≤ limP := by
  refine ⟨?_, ?_, ?_, ?_, ?_, ?_, ?_, ?_, ?_, ?_⟩
  · intro hit hmem
    have h2 := mem_of_mem_mergeSortTake hmem
    rw [List.mem_filterMap] at h2
    obtain ⟨e, _, heq⟩ := h2
    cases hemb : e.embedding with
    | none => simp [hemb] at heq
    | some emb =>
      by_cases hle : dotProduct qJ emb ≤ 3 / 10
      · simp [hemb, hle] at heq
      · simp only [hemb, if_neg hle] at heq
        rw [← Option.some.inj heq]
        exact not_le.mp hle
  · intro hit hmem
    have h2 := mem_of_mem_mergeSortTake hmem
    rw [List.mem_filterMap] at h2
    obtain ⟨p, _, heq⟩ := h2
    by_cases hle : dotProduct qT p.2 ≤ 7 / 20
    · simp [hle] at heq
    · simp only [if_neg hle] at heq
      rw [← Option.some.inj heq]
      exact not_le.mp hle
  · exact pairwise_mergeSortTake (fun h : JournalHit => h.score) _ _
  · exact (List.length_take_le _ _)
  · exact pairwise_mergeSortTake (fun h : TopicHit => h.score) _ _
  · exact (List.length_take_le _ _)
  · exact pairwise_mergeSortTake (fun h : OrchJournalHit => h.score) _ _
  · exact (List.length_take_le _ _)
  · exact pairwise_mergeSortTake (fun h : OrchTopicHit => h.score) _ _
  · exact (List.length_take_le _ _)

/-- Claim C5, witness: the outie journal pipeline at a concrete store — a
matching entry scores 1 and the theorem yields `0.30 < 1`. -/
theorem c5_witness :
    (3 : ℚ) / 10 <
      ({ entry := { id := "a", timestamp := 1, topic := "t", content := "c" },
         score := 1 } : JournalHit).score :=
  (c5_search_pipelines [1]
      [{ id := "a", timestamp := 1, topic := "t", content := "c", embedding := some [1] }]
      5 [] [] 0 [] [] 0 [] [] 0).1
    { entry := { id := "a", timestamp := 1, topic := "t", content := "c" }, score := 1 }
    (by norm_num [searchJournalOutie, List.filterMap_cons, List.filterMap_nil,
      dotProduct, List.mergeSort_singleton])

/-! ## Helper lemmas for the alarm handler -/

/-- Every event a single reminder contributes is its own deletion or its own
dispatch. -/
theorem eventsFor_shape (now : Int) (r : Reminder) (e : AlarmEvent)
    (h : e ∈ eventsFor now r) :
    e = AlarmEvent.deleteRem r.id ∨ e = AlarmEvent.dispatch r.id (alarmPayload r) := by
  unfold eventsFor at h
  rcases hres : resolveReminderTime now r with v | m | _ <;> rw [hres] at h <;>
    try simp at h
  split_ifs at h <;> simp at h <;> tauto

/-- A scan over resolved reminders never throws, emits exactly the
concatenation of the per-reminder events, and deletes exactly the rows whose
id matches a deleted reminder. -/
theorem alarmScan_resolved (now : Int) :
    ∀ (snapshot store : List Reminder),
    (∀ r ∈ snapshot, reminderResolves now r = true) →
    alarmScan now snapshot store =
      (snapshot.flatMap (eventsFor now),
        store.filter (keptAfterScan now snapshot), .ok) := by
  intro snapshot
  induction snapshot with
  | nil =>
    intro store _
    have hfil : List.filter (keptAfterScan now []) store = store := by
      rw [List.filter_congr (q := fun _ => true) (fun x _ => by simp [keptAfterScan])]
      exact List.filter_true store
    simp only [alarmScan, List.flatMap_nil, hfil]
  | cons r rest ih =>
    intro store hres
    have hr : reminderResolves now r = true := hres r (List.mem_cons_self r rest)
    have hrest : ∀ x ∈ rest, reminderResolves now x = true :=
      fun x hx => hres x (List.mem_cons_of_mem r hx)
    rcases hv : resolveReminderTime now r with v | m | _ <;>
      simp only [reminderResolves, hv] at hr <;> try simp at hr
    have hkept : ∀ (del : Bool), alarmDeletes now r = del →
        ∀ x, keptAfterScan now (r :: rest) x =
          (keptAfterScan now rest x && (!del || decide (x.id ≠ r.id))) := by
      intro del hdel x
      rw [keptAfterScan, List.all_cons, hdel, ← keptAfterScan, Bool.and_comm]
    simp only [alarmScan, hv]
    by_cases hmiss : (isOneShot r && jsLt v (.fin (now - 60000))) = true
    · have hdel : alarmDeletes now r = true := by
        rw [Bool.and_eq_true] at hmiss
        simp [alarmDeletes, hv, hmiss.1, hmiss.2]
      simp only [hmiss, if_true, ih _ hrest]
      refine Prod.ext ?_ (Prod.ext ?_ rfl)
      · simp [eventsFor, hv, hmiss]
      · show (store.filter fun x => x.id ≠ r.id).filter (keptAfterScan now rest) =
          store.filter (keptAfterScan now (r :: rest))
        rw [List.filter_filter]
        exact (List.filter_congr (fun x _ => by rw [hkept true hdel x]; simp)).symm
    · by_cases hfire : jsLt (jsAbsSub v now) (.fin 60000) = true
      · have hdel : alarmDeletes now r = isOneShot r := by
          rcases hone : isOneShot r <;> simp [alarmDeletes, hv, hone, hfire]
        simp only [hmiss, if_false, hfire, if_true, ih _ hrest]
        rcases hone : isOneShot r
        · rw [hone] at hdel
          refine Prod.ext ?_ (Prod.ext ?_ rfl)
          · simp [eventsFor, hv, hmiss, hfire, hone]
          · show store.filter (keptAfterScan now rest) =
              store.filter (keptAfterScan now (r :: rest))
            exact (List.filter_congr (fun x _ => by rw [hkept false hdel x]; simp)).symm
        · rw [hone] at hdel
          have hmiss2 : jsLt v (JsNum.fin (now - 60000)) = false := by
            cases hjs : jsLt v (JsNum.fin (now - 60000))
            · rfl
            · exact absurd (by simp [hone, hjs]) hmiss
          refine Prod.ext ?_ (Prod.ext ?_ rfl)
          · simp [eventsFor, hv, hone, hmiss2, hfire]
          · show (store.filter fun x => x.id ≠ r.id).filter (keptAfterScan now rest) =
              store.filter (keptAfterScan now (r :: rest))
            rw [List.filter_filter]
            exact (List.filter_congr (fun x _ => by rw [hkept true hdel x]; simp)).symm
      · have hfire2 : jsLt (jsAbsSub v now) (JsNum.fin 60000) = false := by
          cases hjs : jsLt (jsAbsSub v now) (JsNum.fin 60000)
          · rfl
          · exact absurd hjs hfire
        have hdel : alarmDeletes now r = false := by
          rcases hone : isOneShot r
          · simp [alarmDeletes, hv, hone]
          · have hmiss2 : jsLt v (JsNum.fin (now - 60000)) = false := by
              cases hjs : jsLt v (JsNum.fin (now - 60000))
              · rfl
              · exact absurd (by simp [hone, hjs]) hmiss
            simp [alarmDeletes, hv, hone, hmiss2, hfire2]
        simp only [hmiss, if_false, hfire, ih _ hrest]
        refine Prod.ext ?_ (Prod.ext ?_ rfl)
        · simp [eventsFor, hv, hmiss, hfire]
        · show store.filter (keptAfterScan now rest) =
            store.filter (keptAfterScan now (r :: rest))
          exact (List.filter_congr (fun x _ => by rw [hkept false hdel x]; simp)).symm

/-- The `scheduleNextAlarm` accumulator loop over resolved reminders ends
in an install or a clear; it cannot throw or loop. -/
theorem nextAlarmScan_resolved (now : Int) :
    ∀ (l : List Reminder) (acc : JsNum),
    (∀ r ∈ l, reminderResolves now r = true) →
    (∃ t, nextAlarmScan now l acc = .set t) ∨ nextAlarmScan now l acc = .cleared := by
  intro l
  induction l with
  | nil =>
    intro acc _
    cases acc with
    | nan => exact Or.inr rfl
    | inf => exact Or.inr rfl
    | fin t => exact Or.inl ⟨t, rfl⟩
  | cons r rest ih =>
    intro acc hres
    have hr := hres r (List.mem_cons_self r rest)
    rcases hv : resolveReminderTime now r with v | m | _ <;>
      simp only [reminderResolves, hv] at hr <;> try simp at hr
    simp only [nextAlarmScan, hv]
    exact ih _ (fun x hx => hres x (List.mem_cons_of_mem r hx))

/-- Function `scheduleNextAlarm` over resolved reminders either installs or clears
the alarm. -/
theorem scheduleNextAlarm_resolved (now : Int) (l : List Reminder)
    (hres : ∀ r ∈ l, reminderResolves now r = true) :
    (∃ t, scheduleNextAlarm now l = .set t) ∨ scheduleNextAlarm now l = .cleared := by
  rw [scheduleNextAlarm]
  split
  · exact Or.inr rfl
  · exact nextAlarmScan_resolved now l .inf hres

/-- An `alarm()` run over resolved reminders: the scan events followed by a
single reschedule event, with the table filtered by the scan's deletions. -/
theorem alarmRun_resolved (now : Int) (store : List Reminder)
    (hres : ∀ r ∈ store, reminderResolves now r = true) :
    ∃ le, alarmRun now store =
        (store.flatMap (eventsFor now) ++ [le],
          store.filter (keptAfterScan now store), .ok) ∧
      ((∃ t, le = AlarmEvent.installAlarm t) ∨ le = AlarmEvent.clearAlarm) := by
  have hscan := alarmScan_resolved now store store hres
  have hres2 : ∀ r ∈ store.filter (keptAfterScan now store), reminderResolves now r = true :=
    fun r hr => hres r (List.mem_filter.mp hr).1
  rcases scheduleNextAlarm_resolved now _ hres2 with ⟨t, hsch⟩ | hsch
  · exact ⟨AlarmEvent.installAlarm t,
      by simp only [alarmRun, hscan]; simp [hsch], Or.inl ⟨t, rfl⟩⟩
  · exact ⟨AlarmEvent.clearAlarm,
      by simp only [alarmRun, hscan]; simp [hsch], Or.inr rfl⟩

/-- Events of a missed one-shot: deletion only. -/
theorem eventsFor_missed (now : Int) (r : Reminder) (t : Int)
    (hv : resolveReminderTime now r = .num (.fin t)) (hone : isOneShot r = true)
    (hmt : t < now - 60000) :
    eventsFor now r = [AlarmEvent.deleteRem r.id] := by
  simp [eventsFor, hv, hone, jsLt, hmt]

/-- Events of a reminder strictly inside the fire window: optional deletion,
then the dispatch. -/
theorem eventsFor_fired (now : Int) (r : Reminder) (t : Int)
    (hv : resolveReminderTime now r = .num (.fin t)) (hft : |t - now| < 60000) :
    eventsFor now r =
      (if isOneShot r then [AlarmEvent.deleteRem r.id] else []) ++
        [AlarmEvent.dispatch r.id (alarmPayload r)] := by
  have hnm : ¬(t < now - 60000) := by
    rw [abs_sub_lt_iff] at hft
    omega
  simp [eventsFor, hv, jsLt, jsAbsSub, hnm, hft]

/-- A one-shot that is missed or fired is deleted by the scan. -/
theorem alarmDeletes_of_oneShot (now : Int) (r : Reminder) (t : Int)
    (hv : resolveReminderTime now r = .num (.fin t)) (hone : isOneShot r = true)
    (h : t < now - 60000 ∨ |t - now| < 60000) :
    alarmDeletes now r = true := by
  rcases h with h | h <;> simp [alarmDeletes, hv, hone, jsLt, jsAbsSub, h]

/-- A reminder the scan deletes is gone from the filtered table. -/
theorem not_mem_filter_kept (now : Int) (store : List Reminder) (r : Reminder)
    (hr : r ∈ store) (hdel : alarmDeletes now r = true) :
    r ∉ store.filter (keptAfterScan now store) := by
  intro hmem
  have h2 := (List.mem_filter.mp hmem).2
  rw [keptAfterScan] at h2
  have h3 := List.all_eq_true.mp h2 r hr
  simp [hdel] at h3

/-! ## Claim C3 -/

/-- Claim C3, counterexample: a one-shot reminder whose scheduled time is
exactly 60 000 ms after `now` satisfies `|t − now| ≤ FIRE_WINDOW` but is not
dispatched — the source compares with strict `<` (`Math.abs(time - now) <
60000`), so the alarm run only installs the next alarm and leaves the
reminder untouched. -/
theorem c3_counterexample :
    alarmRun 0 [oneShotReminder "r1" "water" "drink" 60000] =
      ([AlarmEvent.installAlarm 60000], [oneShotReminder "r1" "water" "drink" 60000], .ok) ∧
    |(60000 : Int) - 0| ≤ 60000 :=
  ⟨rfl, by decide⟩

/-- Claim C3, amended: in every `alarm()` run over reminders whose time
evaluation neither throws nor loops and whose ids are distinct, the run
completes; a one-shot more than one minute past due is deleted and never
dispatched; a reminder **strictly** within one minute of `now` is
dispatched, a one-shot being deleted from the table with its deletion event
preceding its dispatch; and the single reschedule event (install or clear)
comes after the entire scan. -/
theorem c3_alarm_trace (now : Int) (store : List Reminder)
    (hres : ∀ r ∈ store, reminderResolves now r = true)
    (hnd : (store.map (fun r => r.id)).Nodup) :
    (alarmRun now store).2.2 = .ok ∧
    (∀ r ∈ store, ∀ t, resolveReminderTime now r = .num (.fin t) →
      ((isOneShot r = true → t < now - 60000 →
        AlarmEvent.deleteRem r.id ∈ (alarmRun now store).1 ∧
        (∀ p, AlarmEvent.dispatch r.id p ∉ (alarmRun now store).1) ∧
        r ∉ (alarmRun now store).2.1) ∧
      (|t - now| < 60000 →
        AlarmEvent.dispatch r.id (alarmPayload r) ∈ (alarmRun now store).1 ∧
        (isOneShot r = true →
          Precedes (AlarmEvent.deleteRem r.id) (AlarmEvent.dispatch r.id (alarmPayload r))
            (alarmRun now store).1 ∧
          r ∉ (alarmRun now store).2.1)))) ∧
    (∃ evs0 le, (alarmRun now store).1 = evs0 ++ [le] ∧
      ((∃ t, le = AlarmEvent.installAlarm t) ∨ le = AlarmEvent.clearAlarm) ∧
      ∀ e ∈ evs0, (∀ t, e ≠ AlarmEvent.installAlarm t) ∧ e ≠ AlarmEvent.clearAlarm) := by
  obtain ⟨le, hrun, hle⟩ := alarmRun_resolved now store hres
  have idInj : ∀ a ∈ store, ∀ b ∈ store, a.id = b.id → a = b :=
    fun a ha b hb h => List.inj_on_of_nodup_map hnd ha hb h
  refine ⟨by rw [hrun], ?_, ?_⟩
  · intro r hr t hv
    constructor
    · intro hone hmt
      have hev := eventsFor_missed now r t hv hone hmt
      refine ⟨?_, ?_, ?_⟩
      · rw [hrun]
        refine List.mem_append_left _ (List.mem_flatMap.mpr ⟨r, hr, ?_⟩)
        rw [hev]
        exact List.mem_singleton_self _
      · intro p hp
        rw [hrun] at hp
        rcases List.mem_append.mp hp with hp1 | hp1
        · obtain ⟨r2, hr2, hm2⟩ := List.mem_flatMap.mp hp1
          rcases eventsFor_shape now r2 _ hm2 with he | he
          · exact absurd he (by simp)
          · have hid : r.id = r2.id := by
              injection he with h1 h2
            have : r = r2 := idInj r hr r2 hr2 hid
            rw [← this, hev] at hm2
            simp at hm2
        · rcases hle with ⟨t2, hle⟩ | hle <;> rw [hle] at hp1 <;> simp at hp1
      · rw [hrun]
        exact not_mem_filter_kept now store r hr
          (alarmDeletes_of_oneShot now r t hv hone (Or.inl hmt))
    · intro hft
      have hev := eventsFor_fired now r t hv hft
      refine ⟨?_, ?_⟩
      · rw [hrun]
        refine List.mem_append_left _ (List.mem_flatMap.mpr ⟨r, hr, ?_⟩)
        rw [hev]
        exact List.mem_append_right _ (List.mem_singleton_self _)
      · intro hone
        constructor
        · obtain ⟨s1, s2, hsplit⟩ := List.append_of_mem hr
          rw [hrun, hsplit, List.flatMap_append, List.flatMap_cons, hev, hone]
          refine ⟨s1.flatMap (eventsFor now), [],
            s2.flatMap (eventsFor now) ++ [le], ?_⟩
          simp
        · rw [hrun]
          exact not_mem_filter_kept now store r hr
            (alarmDeletes_of_oneShot now r t hv hone (Or.inr hft))
  · refine ⟨store.flatMap (eventsFor now), le, by rw [hrun], hle, ?_⟩
    intro e he
    obtain ⟨r2, _, hm2⟩ := List.mem_flatMap.mp he
    rcases eventsFor_shape now r2 _ hm2 with h2 | h2 <;> rw [h2] <;>
      exact ⟨fun t2 => by simp, by simp⟩

/-- Claim C3, witness: a store holding one missed one-shot and one fireable
one-shot, with deletion preceding dispatch and the reschedule last. -/
theorem c3_witness :
    AlarmEvent.dispatch "r3" (alarmPayload (oneShotReminder "r3" "f" "y" 30000)) ∈
      (alarmRun 0 [oneShotReminder "r2" "old" "x" (-700000),
        oneShotReminder "r3" "f" "y" 30000]).1 ∧
    Precedes (AlarmEvent.deleteRem "r3")
      (AlarmEvent.dispatch "r3" (alarmPayload (oneShotReminder "r3" "f" "y" 30000)))
      (alarmRun 0 [oneShotReminder "r2" "old" "x" (-700000),
        oneShotReminder "r3" "f" "y" 30000]).1 :=
  have h := (c3_alarm_trace 0
    [oneShotReminder "r2" "old" "x" (-700000), oneShotReminder "r3" "f" "y" 30000]
    (by decide) (by decide)).2.1
    (oneShotReminder "r3" "f" "y" 30000) (by decide) 30000 (by decide)
  ⟨(h.2 (by decide)).1, ((h.2 (by decide)).2 (by decide)).1⟩

/-! ## Helper lemmas for broken cron expressions -/

/-- A cron string that does not split into exactly five fields makes
`getNextCronTime` throw. -/
theorem getNextCronTime_invalid (c : String) (now : Int)
    (hlen : (splitOnChar ' ' c.data).length ≠ 5) :
    getNextCronTime c now =
      .invalid (("Invalid cron expression: ").data ++ c.data) := by
  unfold getNextCronTime
  rcases hs : splitOnChar ' ' c.data with
      _ | ⟨a, _ | ⟨b, _ | ⟨d, _ | ⟨e, _ | ⟨f, _ | ⟨g, l⟩⟩⟩⟩⟩⟩ <;>
    rw [hs] at hlen <;> first
      | rfl
      | (exfalso; exact hlen (by simp))

/-- A reminder with no scheduled time and a non-empty cron expression of the
wrong field count resolves to a thrown error. -/
theorem resolveReminderTime_err (now : Int) (r : Reminder) (c : String)
    (hst : r.scheduledTime = none) (hcr : r.cronExpression = some c)
    (hne : c ≠ "") (hlen : (splitOnChar ' ' c.data).length ≠ 5) :
    resolveReminderTime now r =
      .err (("Invalid cron expression: ").data ++ c.data) := by
  simp only [resolveReminderTime, hst, hcr, if_neg hne, getNextCronTime_invalid c now hlen]

/-- With no diverging reminder and at least one whose time evaluation
throws, the `scheduleNextAlarm` loop throws. -/
theorem nextAlarmScan_err (now : Int) :
    ∀ (l : List Reminder) (acc : JsNum),
    (∀ r ∈ l, resolveReminderTime now r ≠ .diverge) →
    (∃ r ∈ l, ∃ m, resolveReminderTime now r = .err m) →
    ∃ m, nextAlarmScan now l acc = .err m := by
  intro l
  induction l with
  | nil =>
    intro acc _ hbad
    obtain ⟨r, hr, _⟩ := hbad
    exact absurd hr (List.not_mem_nil r)
  | cons r rest ih =>
    intro acc hnodiv hbad
    rcases hv : resolveReminderTime now r with v | m | _
    · obtain ⟨r0, hr0, m0, hm0⟩ := hbad
      rcases List.mem_cons.mp hr0 with h0 | h0
      · rw [h0, hv] at hm0
        exact absurd hm0 (by simp)
      · simp only [nextAlarmScan, hv]
        exact ih _ (fun x hx => hnodiv x (List.mem_cons_of_mem r hx)) ⟨r0, h0, m0, hm0⟩
    · exact ⟨m, by simp [nextAlarmScan, hv]⟩
    · exact absurd hv (hnodiv r (List.mem_cons_self r rest))

/-- Same property for `scheduleNextAlarm` itself. -/
theorem scheduleNextAlarm_err (now : Int) (store : List Reminder)
    (hnodiv : ∀ r ∈ store, resolveReminderTime now r ≠ .diverge)
    (hbad : ∃ r ∈ store, ∃ m, resolveReminderTime now r = .err m) :
    ∃ m, scheduleNextAlarm now store = .err m := by
  obtain ⟨r, hr, m, hm⟩ := hbad
  rw [scheduleNextAlarm]
  split
  · subst store
    exact absurd hr (List.not_mem_nil r)
  · exact nextAlarmScan_err now store .inf hnodiv ⟨r, hr, m, hm⟩

/-- With no diverging reminder and at least one that throws, the `alarm()`
scan exits thrown. -/
theorem alarmScan_err (now : Int) :
    ∀ (snapshot store : List Reminder),
    (∀ r ∈ snapshot, resolveReminderTime now r ≠ .diverge) →
    (∃ r ∈ snapshot, ∃ m, resolveReminderTime now r = .err m) →
    ∃ m, (alarmScan now snapshot store).2.2 = .thrown m := by
  intro snapshot
  induction snapshot with
  | nil =>
    intro store _ hbad
    obtain ⟨r, hr, _⟩ := hbad
    exact absurd hr (List.not_mem_nil r)
  | cons r rest ih =>
    intro store hnodiv hbad
    rcases hv : resolveReminderTime now r with v | m | _
    · obtain ⟨r0, hr0, m0, hm0⟩ := hbad
      rcases List.mem_cons.mp hr0 with h0 | h0
      · rw [h0, hv] at hm0
        exact absurd hm0 (by simp)
      · have hrest : ∀ x ∈ rest, resolveReminderTime now x ≠ .diverge :=
          fun x hx => hnodiv x (List.mem_cons_of_mem r hx)
        simp only [alarmScan, hv]
        split
        · exact ih _ hrest ⟨r0, h0, m0, hm0⟩
        · split
          · exact ih _ hrest ⟨r0, h0, m0, hm0⟩
          · exact ih _ hrest ⟨r0, h0, m0, hm0⟩
    · exact ⟨m, by simp [alarmScan, hv]⟩
    · exact absurd hv (hnodiv r (List.mem_cons_self r rest))

/-- A row whose id never matches a deleted one-shot survives the scan. -/
theorem alarmScan_keeps (now : Int) :
    ∀ (snapshot store : List Reminder) (x : Reminder), x ∈ store →
    (∀ r ∈ snapshot, isOneShot r = true → r.id ≠ x.id) →
    x ∈ (alarmScan now snapshot store).2.1 := by
  intro snapshot
  induction snapshot with
  | nil => intro store x hx _; exact hx
  | cons r rest ih =>
    intro store x hx hsafe
    have hrest : ∀ r2 ∈ rest, isOneShot r2 = true → r2.id ≠ x.id :=
      fun r2 h2 => hsafe r2 (List.mem_cons_of_mem r h2)
    have hxfil : ∀ p : Reminder → Bool, (p x = true) → x ∈ store.filter p :=
      fun p hp => List.mem_filter.mpr ⟨hx, hp⟩
    rcases hv : resolveReminderTime now r with v | m | _ <;> simp only [alarmScan, hv]
    · split
      · rename_i hcond
        have hone : isOneShot r = true := by
          rw [Bool.and_eq_true] at hcond
          exact hcond.1
        refine ih _ x (hxfil _ ?_) hrest
        simp [Ne.symm (hsafe r (List.mem_cons_self r rest) hone)]
      · split
        · rcases hone : isOneShot r
          · simp only [hone]
            exact ih _ x (by simpa using hx) hrest
          · simp only [hone]
            refine ih _ x (hxfil _ ?_) hrest
            simp [Ne.symm (hsafe r (List.mem_cons_self r rest) hone)]
        · exact ih _ x hx hrest
    · exact hx
    · exact hx

/-- Every event the scan emits is a deletion or a dispatch. -/
theorem alarmScan_events_shape (now : Int) :
    ∀ (snapshot store : List Reminder) (e : AlarmEvent),
    e ∈ (alarmScan now snapshot store).1 →
    (∃ i, e = AlarmEvent.deleteRem i) ∨ ∃ i p, e = AlarmEvent.dispatch i p := by
  intro snapshot
  induction snapshot with
  | nil => intro store e he; exact absurd he (List.not_mem_nil e)
  | cons r rest ih =>
    intro store e he
    rcases hv : resolveReminderTime now r with v | m | _ <;>
      simp only [alarmScan, hv] at he
    · split at he
      · rcases List.mem_cons.mp he with h | h
        · exact Or.inl ⟨r.id, h⟩
        · exact ih _ e h
      · split at he
        · rcases List.mem_append.mp he with h | h
          · split at h
            · rcases List.mem_singleton.mp h with h
              exact Or.inl ⟨r.id, h⟩
            · exact absurd h (List.not_mem_nil e)
          · rcases List.mem_cons.mp h with h | h
            · exact Or.inr ⟨r.id, alarmPayload r, h⟩
            · exact ih _ e h
        · exact ih _ e he
    · exact absurd he (List.not_mem_nil e)
    · exact absurd he (List.not_mem_nil e)

/-! ## Claim C10 -/

/-- Claim C10, counterexample: the empty string has one field, not five, so
per the claim it should make the scheduler throw once stored — but
`reminder.cronExpression ? ... : Infinity` tests truthiness, the empty
string is falsy, and both `scheduleNextAlarm` and the alarm run complete
normally without ever calling the evaluator. -/
theorem c10_counterexample :
    scheduleNextAlarm 0
        [{ id := "b", description := "d", payload := "p", cronExpression := some "",
           scheduledTime := none, createdAt := 0 }] = .cleared ∧
    (splitOnChar ' ' ("" : String).data).length ≠ 5 ∧
    (alarmRun 0
        [{ id := "b", description := "d", payload := "p", cronExpression := some "",
           scheduledTime := none, createdAt := 0 }]).2.2 = .ok :=
  ⟨rfl, by decide, rfl⟩

/-- Claim C10, amended: `schedule_recurring` persists its reminder with no
validation of the cron expression whatever the expression is; and once the
store holds a reminder whose cron expression is **non-empty** with a field
count other than five (the empty string is falsy and bypasses the
evaluator), then — as long as no reminder makes the evaluator loop — every
`scheduleNextAlarm` call throws, every `alarm()` run throws with the broken
reminder still persisted, and no alarm is ever installed or cleared, so
alarm scheduling for all valid reminders is blocked. -/
theorem c10_broken_cron_blocks_scheduling (env : ToolEnv) (st0 : OrchestratorState)
    (args : ToolArgs) (now : Int) (store : List Reminder) (rbad : Reminder) (c : String)
    (hmem : rbad ∈ store) (hst : rbad.scheduledTime = none)
    (hcr : rbad.cronExpression = some c) (hne : c ≠ "")
    (hlen : (splitOnChar ' ' c.data).length ≠ 5)
    (hnodiv : ∀ r ∈ store, resolveReminderTime now r ≠ .diverge)
    (hnd : (store.map (fun r => r.id)).Nodup) :
    (executeToolInternal env st0 "schedule_recurring" args).2 =
      saveReminderS st0 (recurringReminderOf env args) ∧
    (∃ m, scheduleNextAlarm now store = .err m) ∧
    (∃ m, (alarmRun now store).2.2 = .thrown m) ∧
    rbad ∈ (alarmRun now store).2.1 ∧
    (∀ e ∈ (alarmRun now store).1,
      (∀ t, e ≠ AlarmEvent.installAlarm t) ∧ e ≠ AlarmEvent.clearAlarm) := by
  have herr := resolveReminderTime_err now rbad c hst hcr hne hlen
  have hbad : ∃ r ∈ store, ∃ m, resolveReminderTime now r = .err m :=
    ⟨rbad, hmem, _, herr⟩
  obtain ⟨m0, hscan⟩ := alarmScan_err now store store hnodiv hbad
  have hrun : alarmRun now store =
      ((alarmScan now store store).1, (alarmScan now store store).2.1, .thrown m0) := by
    rw [alarmRun, hscan]
  refine ⟨?_, scheduleNextAlarm_err now store hnodiv hbad, ⟨m0, by rw [hrun]⟩, ?_, ?_⟩
  · rw [exec_schedule_recurring_eq]
    rcases h : scheduleNextAlarm env.now
        (saveReminderS st0 (recurringReminderOf env args)).reminders <;> rfl
  · rw [hrun]
    refine alarmScan_keeps now store store rbad hmem ?_
    intro r hr hone hid
    have : r = rbad := List.inj_on_of_nodup_map hnd hr hmem hid
    rw [this, isOneShot, hst] at hone
    exact absurd hone (by simp)
  · intro e he
    rw [hrun] at he
    rcases alarmScan_events_shape now store store e he with ⟨i, h⟩ | ⟨i, p, h⟩ <;>
      rw [h] <;> exact ⟨fun t => by simp, by simp⟩

/-- Claim C10, witness: a three-field cron expression stored in a singleton
table makes `scheduleNextAlarm` throw. -/
theorem c10_witness :
    ∃ m, scheduleNextAlarm 0
        [{ id := "b", description := "d", payload := "p",
           cronExpression := some "not a cron", scheduledTime := none,
           createdAt := 0 }] = .err m :=
  (c10_broken_cron_blocks_scheduling { now := 0 } {} {} 0
    [{ id := "b", description := "d", payload := "p",
       cronExpression := some "not a cron", scheduledTime := none, createdAt := 0 }]
    { id := "b", description := "d", payload := "p",
      cronExpression := some "not a cron", scheduledTime := none, createdAt := 0 }
    "not a cron" (by decide) rfl rfl (by decide) (by decide) (by decide)
    (by decide)).2.1

/-! ## Helper lemmas for the cron evaluator -/

/-- The `*` field does not parse as an integer. -/
theorem jsParseInt_star : jsParseInt ['*'] = none := by decide

/-- Stepping one day advances the day-of-week cyclically. -/
theorem dayOfWeek_add_day (t : Int) :
    dayOfWeek (t + msPerDay) = (dayOfWeek t + 1) % 7 := by
  simp only [dayOfWeek, msPerDay]
  omega

/-- The day-of-week loop, run with enough fuel, lands exactly on the target
weekday after a whole number of days. -/
theorem advanceDow_go (d : Int) (h0 : 0 ≤ d) (h7 : d < 7) :
    ∀ (fuel : Nat) (t : Int), ((d - dayOfWeek t) % 7).toNat < fuel →
    ∃ j : Nat, advanceDow d fuel t = some (t + j * msPerDay) ∧
      dayOfWeek (t + j * msPerDay) = d := by
  intro fuel
  induction fuel with
  | zero => intro t h; omega
  | succ n ih =>
    intro t h
    by_cases hd : dayOfWeek t = d
    · refine ⟨0, by simp [advanceDow, hd], by simpa using hd⟩
    · have hb : 0 ≤ dayOfWeek t ∧ dayOfWeek t < 7 := by
        simp only [dayOfWeek, msPerDay]
        omega
      have hstep := dayOfWeek_add_day t
      have hlt : ((d - dayOfWeek (t + msPerDay)) % 7).toNat < n := by
        rw [hstep]
        omega
      obtain ⟨j, hj, hdw⟩ := ih (t + msPerDay) hlt
      refine ⟨j + 1, ?_, ?_⟩
      · rw [advanceDow, if_neg hd, hj]
        congr 1
        push_cast
        ring
      · have h1 : t + msPerDay + (j : Int) * msPerDay = t + ((j : Int) + 1) * msPerDay := by
          ring
        rw [h1] at hdw
        have h2 : ((j + 1 : Nat) : Int) = (j : Int) + 1 := by push_cast; ring
        rw [h2]
        exact hdw

/-- The day-of-week loop with the source's fuel of 7: for a real weekday
target it terminates on the target, no earlier than it started, preserving
minute and hour. -/
theorem advanceDow_spec (d : Int) (h0 : 0 ≤ d) (h7 : d < 7) (t : Int) :
    ∃ u, advanceDow d 7 t = some u ∧ dayOfWeek u = d ∧ t ≤ u ∧
      minuteOfHour u = minuteOfHour t ∧ hourOfDay u = hourOfDay t := by
  have hb : 0 ≤ (d - dayOfWeek t) % 7 ∧ (d - dayOfWeek t) % 7 < 7 := by omega
  obtain ⟨j, hj, hdw⟩ := advanceDow_go d h0 h7 7 t (by omega)
  refine ⟨t + j * msPerDay, hj, hdw, ?_, ?_, ?_⟩
  · simp only [msPerDay]
    omega
  · simp only [minuteOfHour, msPerHour, msPerMinute, msPerDay]
    omega
  · simp only [hourOfDay, msPerHour, msPerDay]
    omega

/-- The roll-forward step lands strictly after `now` whenever its input is
less than one day in the past, preserving minute and hour. -/
theorem rollForwardIfPast_spec (now z : Int) (hlow : now - msPerDay < z) :
    ∃ t, rollForwardIfPast now (some z) = some t ∧ now < t ∧
      minuteOfHour t = minuteOfHour z ∧ hourOfDay t = hourOfDay z := by
  by_cases hz : z ≤ now
  · refine ⟨z + msPerDay, by simp [rollForwardIfPast, hz], ?_, ?_, ?_⟩
    · simp only [msPerDay] at hlow ⊢
      omega
    · simp only [minuteOfHour, msPerHour, msPerMinute, msPerDay]
      omega
    · simp only [hourOfDay, msPerHour, msPerDay]
      omega
  · exact ⟨z, by simp [rollForwardIfPast, hz], by omega, rfl, rfl⟩

/-- The minute/hour/zero-seconds steps of `getNextCronTime`, followed by the
roll-forward, produce a defined time strictly after `now` that satisfies the
non-`*` minute and hour fields when they are in-range integers. -/
theorem cronSteps_spec (now : Int) (mf hf : List Char)
    (hm : fieldOk 60 mf) (hh : fieldOk 24 hf) :
    ∃ t, rollForwardIfPast now
        ((applyHourField hf (applyMinuteField mf (some now))).map zeroSecondsAndMs) =
        some t ∧
      now < t ∧
      (mf = ['*'] ∨ jsParseInt mf = some (minuteOfHour t)) ∧
      (hf = ['*'] ∨ jsParseInt hf = some (hourOfDay t)) := by
  rcases hm with hm | ⟨mv, hmv, hmv0, hmv60⟩ <;>
    rcases hh with hh | ⟨hv, hhv, hhv0, hhv24⟩
  · obtain ⟨t, ht, hlt, _, _⟩ := rollForwardIfPast_spec now (zeroSecondsAndMs now)
      (by simp only [zeroSecondsAndMs, msPerMinute, msPerDay]; omega)
    refine ⟨t, ?_, hlt, Or.inl hm, Or.inl hh⟩
    simpa [applyMinuteField, applyHourField, hm, hh] using ht
  · have hz : now - msPerDay < zeroSecondsAndMs (setHoursUTC now hv) ∧
        hourOfDay (zeroSecondsAndMs (setHoursUTC now hv)) = hv := by
      simp only [zeroSecondsAndMs, setHoursUTC, hourOfDay, msPerMinute, msPerHour, msPerDay]
      omega
    have hhne : hf ≠ ['*'] := by
      intro he
      rw [he] at hhv
      simp [jsParseInt_star] at hhv
    obtain ⟨t, ht, hlt, _, hhr⟩ := rollForwardIfPast_spec now _ hz.1
    refine ⟨t, ?_, hlt, Or.inl hm, Or.inr ?_⟩
    · simpa [applyMinuteField, applyHourField, hm, hhne, hhv] using ht
    · rw [hhv, hhr, hz.2]
  · have hz : now - msPerDay < zeroSecondsAndMs (setMinutesUTC now mv) ∧
        minuteOfHour (zeroSecondsAndMs (setMinutesUTC now mv)) = mv := by
      simp only [zeroSecondsAndMs, setMinutesUTC, minuteOfHour, msPerMinute, msPerHour, msPerDay]
      omega
    have hmne : mf ≠ ['*'] := by
      intro he
      rw [he] at hmv
      simp [jsParseInt_star] at hmv
    obtain ⟨t, ht, hlt, hmr, _⟩ := rollForwardIfPast_spec now _ hz.1
    refine ⟨t, ?_, hlt, Or.inr ?_, Or.inl hh⟩
    · simpa [applyMinuteField, applyHourField, hh, hmne, hmv] using ht
    · rw [hmv, hmr, hz.2]
  · have hz : now - msPerDay < zeroSecondsAndMs (setHoursUTC (setMinutesUTC now mv) hv) ∧
        minuteOfHour (zeroSecondsAndMs (setHoursUTC (setMinutesUTC now mv) hv)) = mv ∧
        hourOfDay (zeroSecondsAndMs (setHoursUTC (setMinutesUTC now mv) hv)) = hv := by
      simp only [zeroSecondsAndMs, setHoursUTC, setMinutesUTC, minuteOfHour, hourOfDay,
        msPerMinute, msPerHour, msPerDay]
      omega
    have hmne : mf ≠ ['*'] := by
      intro he
      rw [he] at hmv
      simp [jsParseInt_star] at hmv
    have hhne : hf ≠ ['*'] := by
      intro he
      rw [he] at hhv
      simp [jsParseInt_star] at hhv
    obtain ⟨t, ht, hlt, hmr, hhr⟩ := rollForwardIfPast_spec now _ hz.1
    refine ⟨t, ?_, hlt, Or.inr ?_, Or.inr ?_⟩
    · simpa [applyMinuteField, applyHourField, hmne, hmv, hhne, hhv] using ht
    · rw [hmv, hmr, hz.2.1]
    · rw [hhv, hhr, hz.2.2]

/-! ## Claim C2 -/

/-- Claim C2, counterexample, two failures at once. First, the day-of-month
and month fields are parsed but never applied: `"0 9 15 1 *"` (09:00 on 15
January) evaluated at the epoch returns 09:00 on 1 January 1970, whose
day-of-month is 1, not 15. Second, a malformed non-`*` literal is not
rejected: `"x 9 * * *"` propagates `setMinutes(NaN)` and the call returns a
`NaN` time value instead of throwing. -/
theorem c2_counterexample :
    getNextCronTime "0 9 15 1 *" 0 = .time 32400000 ∧
    dayOfMonthOf 32400000 = 1 ∧ (1 : Int) ≠ 15 ∧
    getNextCronTime "x 9 * * *" 0 = .nanTime ∧
    jsParseInt ("x").data = none :=
  ⟨by decide, by decide, by decide, by decide, by decide⟩

/-- Reduction of `getNextCronTime` once the field split is known. -/
theorem getNextCronTime_fields (cron : String) (now : Int) (mf hf domf monf dwf : List Char)
    (hsplit : splitOnChar ' ' cron.data = [mf, hf, domf, monf, dwf]) :
    getNextCronTime cron now =
      applyDowField dwf (rollForwardIfPast now
        ((applyHourField hf (applyMinuteField mf (some now))).map zeroSecondsAndMs)) := by
  unfold getNextCronTime
  rw [hsplit]


/-- Claim C2, amended: the evaluator enforces only the minute, hour and
day-of-week fields. For every five-field expression whose minute, hour and
day-of-week fields are each `*` or an in-range integer literal, it returns a
time strictly after `now` whose minute-of-hour, hour-of-day and day-of-week
satisfy those fields (day-of-month and month are ignored). Only a wrong
field count is rejected with an error; a non-parseable minute or hour yields
a `NaN` result and a non-parseable or out-of-range day-of-week never
terminates, rather than being rejected. -/
theorem c2_cron_next_time (cron : String) (now : Int) (mf hf domf monf dwf : List Char)
    (hsplit : splitOnChar ' ' cron.data = [mf, hf, domf, monf, dwf])
    (hm : fieldOk 60 mf) (hh : fieldOk 24 hf) (hd : fieldOk 7 dwf) :
    ∃ t, getNextCronTime cron now = .time t ∧ now < t ∧
      (mf = ['*'] ∨ jsParseInt mf = some (minuteOfHour t)) ∧
      (hf = ['*'] ∨ jsParseInt hf = some (hourOfDay t)) ∧
      (dwf = ['*'] ∨ jsParseInt dwf = some (dayOfWeek t)) := by
  obtain ⟨z, hz, hlt, hmin, hhour⟩ := cronSteps_spec now mf hf hm hh
  rw [getNextCronTime_fields cron now mf hf domf monf dwf hsplit, hz]
  rcases hd with hd | ⟨dv, hdv, hdv0, hdv7⟩
  · exact ⟨z, by simp [applyDowField, hd], hlt, hmin, hhour, Or.inl hd⟩
  · have hdne : dwf ≠ ['*'] := by
      intro he
      rw [he] at hdv
      simp [jsParseInt_star] at hdv
    obtain ⟨u, hu, hdw, hle2, hminu, hhoru⟩ := advanceDow_spec dv hdv0 hdv7 z
    refine ⟨u, ?_, by omega, ?_, ?_, Or.inr (by rw [hdv, hdw])⟩
    · simp [applyDowField, hdne, hdv, hu]
    · rcases hmin with hmin | hmin
      · exact Or.inl hmin
      · exact Or.inr (by rw [hminu]; exact hmin)
    · rcases hhour with hhour | hhour
      · exact Or.inl hhour
      · exact Or.inr (by rw [hhoru]; exact hhour)

/-- Claim C2, witness: `"30 9 * * 1"` (09:30 on Mondays) evaluated at the
epoch yields a strictly future time at minute 30, hour 9, on a Monday. -/
theorem c2_witness :
    ∃ t, getNextCronTime "30 9 * * 1" 0 = .time t ∧ (0 : Int) < t ∧
      (("30").data = ['*'] ∨ jsParseInt ("30").data = some (minuteOfHour t)) ∧
      (("9").data = ['*'] ∨ jsParseInt ("9").data = some (hourOfDay t)) ∧
      (("1").data = ['*'] ∨ jsParseInt ("1").data = some (dayOfWeek t)) :=
  c2_cron_next_time "30 9 * * 1" 0 ("30").data ("9").data ("*").data ("*").data ("1").data
    (by decide)
    (Or.inr ⟨30, by decide, by decide, by decide⟩)
    (Or.inr ⟨9, by decide, by decide, by decide⟩)
    (Or.inr ⟨1, by decide, by decide, by decide⟩)
